import Mathlib

/-!
Verification of the `publish_content.py` pipeline (Liwanag canonical content).

This file shallowly embeds the publish pipeline of `src/scripts/publish_content.py`:
YAML-parsed documents become `JValue`/`Yaml` values, the DynamoDB table and S3
bucket become association lists threaded through the run, fallible code returns
`Except RErr`, and `int(time.time())` becomes an explicit timestamp parameter.
Arrays and objects of `JValue` are represented with explicit cons-chain
constructors so that every function on them is structurally recursive and
kernel-evaluable.
-/

set_option maxRecDepth 100000

namespace Liwanag

/-! ## JSON-like values (results of `yaml.safe_load`, Python dicts/lists) -/

/-- A Python value as produced by `yaml.safe_load` and manipulated by the
script: `None`, booleans, strings, integers, lists and string-keyed dicts.
Lists are encoded with `anil`/`acons` under `arr`, and dict field chains with
`fnil`/`fcons` under `obj`, keeping all recursion structural. -/
inductive JValue where
  | null
  | bool (b : Bool)
  | str (s : String)
  | int (n : Int)
  | arr (elems : JValue)
  | anil
  | acons (hd tl : JValue)
  | obj (fields : JValue)
  | fnil
  | fcons (k : String) (v tl : JValue)
deriving DecidableEq, Repr

/-- A parsed YAML mapping (a Python dict), as an association list. -/
abbrev Yaml := List (String × JValue)

/-- Build an `arr` element chain from a list. -/
def jlist : List JValue → JValue
  | [] => .anil
  | x :: xs => .acons x (jlist xs)

/-- A Python list literal. -/
def jarr (xs : List JValue) : JValue := .arr (jlist xs)

/-- Build an `obj` field chain from an association list. -/
def ofFields : List (String × JValue) → JValue
  | [] => .fnil
  | (k, v) :: tl => .fcons k v (ofFields tl)

/-- A Python dict literal. -/
def jobj (fs : List (String × JValue)) : JValue := .obj (ofFields fs)

/-- Decompose an `obj` field chain back into an association list. -/
def toFields : JValue → List (String × JValue)
  | .fcons k v tl => (k, v) :: toFields tl
  | _ => []

/-- `d.get(k)` on a Python dict. -/
def yget : Yaml → String → Option JValue
  | [], _ => none
  | p :: t, k => if p.1 = k then some p.2 else yget t k

/-- `d.get(k, default)` on a Python dict. -/
def ygetD (y : Yaml) (k : String) (d : JValue) : JValue :=
  (yget y k).getD d

/-- Python truthiness (`bool(v)`): `None`, `False`, `""`, `0`, `[]`, `{}` are falsy. -/
def jTruthy : JValue → Bool
  | .null => false
  | .bool b => b
  | .str s => s != ""
  | .int n => n != 0
  | .arr .anil => false
  | .arr _ => true
  | .obj .fnil => false
  | .obj _ => true
  | _ => true

/-- `v.get(k) or default` — Python's falsy-coalescing `or`. -/
def orDefault (v : Option JValue) (d : JValue) : JValue :=
  match v with
  | some x => if jTruthy x then x else d
  | none => d

/-- Python `repr()` for the values above (containers render their elements
with `repr`, strings get single quotes). -/
def pyRepr : JValue → String
  | .null => "None"
  | .bool b => if b then "True" else "False"
  | .str s => "'" ++ s ++ "'"
  | .int n => toString n
  | .arr xs => "[" ++ pyRepr xs ++ "]"
  | .anil => ""
  | .acons h .anil => pyRepr h
  | .acons h tl => pyRepr h ++ ", " ++ pyRepr tl
  | .obj fs => "\x7b" ++ pyRepr fs ++ "\x7d"
  | .fnil => ""
  | .fcons k v .fnil => "'" ++ k ++ "': " ++ pyRepr v
  | .fcons k v tl => "'" ++ k ++ "': " ++ pyRepr v ++ ", " ++ pyRepr tl

/-- Python `str()`, as used by f-string interpolation. -/
def pyStr : JValue → String
  | .str s => s
  | v => pyRepr v

/-- Python `int(v)` coercion; `none` models the `TypeError`/`ValueError` raise. -/
def pyInt : JValue → Option Int
  | .int n => some n
  | .bool b => some (if b then 1 else 0)
  | .str s => s.trim.toInt?
  | _ => none

/-- Length of an element or field chain. -/
def jlen : JValue → Nat
  | .acons _ tl => 1 + jlen tl
  | .fcons _ _ tl => 1 + jlen tl
  | _ => 0

/-- Python `len(v)`; `none` models the `TypeError` raise on unsized values. -/
def pyLen : JValue → Option Nat
  | .str s => some s.length
  | .arr xs => some (jlen xs)
  | .obj fs => some (jlen fs)
  | _ => none

/-! ## String ordering (Python compares strings by code point, lexicographically) -/

/-- Lexicographic strict comparison of character lists by code point. -/
def charsLt : List Char → List Char → Bool
  | [], [] => false
  | [], _ :: _ => true
  | _ :: _, [] => false
  | a :: as, b :: bs =>
    if a.toNat < b.toNat then true
    else if b.toNat < a.toNat then false
    else charsLt as bs

/-- `a <= b` on strings, by code point (Python's string order). -/
def strLe (a b : String) : Bool := !(charsLt b.data a.data)

/-- `s.startswith(p)` on strings. -/
def strStarts (p s : String) : Bool := p.data.isPrefixOf s.data

/-- Insert into a list sorted ascending by the string key `key` (stable). -/
def insertKey (key : α → String) (x : α) : List α → List α
  | [] => [x]
  | y :: ys => if strLe (key x) (key y) then x :: y :: ys else y :: insertKey key x ys

/-- Stable ascending sort by the string key `key` — Python's `sorted(..., key=...)`. -/
def sortKey (key : α → String) : List α → List α
  | [] => []
  | x :: xs => insertKey key x (sortKey key xs)

/-- Sort an association list by its keys, as `json.dumps(sort_keys=True)` does. -/
def sortPairs (l : List (String × JValue)) : List (String × JValue) :=
  sortKey (fun p => p.1) l

/-! ## JSON serialization (`json.dumps`) -/

/-- Hex digit characters. -/
def hexChar : Nat → Char
  | 0 => '0' | 1 => '1' | 2 => '2' | 3 => '3' | 4 => '4' | 5 => '5' | 6 => '6' | 7 => '7'
  | 8 => '8' | 9 => '9' | 10 => 'a' | 11 => 'b' | 12 => 'c' | 13 => 'd' | 14 => 'e' | _ => 'f'

/-- JSON string escaping as `json.dumps(..., ensure_ascii=False)` performs it:
quote, backslash and control characters are escaped, everything else is kept. -/
def escChar (c : Char) : List Char :=
  if c = '"' then ['\\', '"']
  else if c = '\\' then ['\\', '\\']
  else if c = '\n' then ['\\', 'n']
  else if c = '\t' then ['\\', 't']
  else if c = '\r' then ['\\', 'r']
  else if c = '\x08' then ['\\', 'b']
  else if c = '\x0c' then ['\\', 'f']
  else if c.toNat < 32 then ['\\', 'u', '0', '0', hexChar (c.toNat / 16), hexChar (c.toNat % 16)]
  else [c]

/-- Escape a string for a JSON string literal. -/
def jsonEscape (s : String) : String := ⟨s.data.flatMap escChar⟩

/-- `json.dumps` with item separator `isep` and key separator `ksep`, keys in
dict insertion order. `json.dumps(v, ensure_ascii=False)` is
`jdump ", " ": " v`; the `sort_keys=True` variant is obtained by serializing
`canon v` (below) with the requested separators. -/
def jdump (isep ksep : String) : JValue → String
  | .null => "null"
  | .bool b => if b then "true" else "false"
  | .str s => "\"" ++ jsonEscape s ++ "\""
  | .int n => toString n
  | .arr xs => "[" ++ jdump isep ksep xs ++ "]"
  | .anil => ""
  | .acons h .anil => jdump isep ksep h
  | .acons h tl => jdump isep ksep h ++ isep ++ jdump isep ksep tl
  | .obj fs => "\x7b" ++ jdump isep ksep fs ++ "\x7d"
  | .fnil => ""
  | .fcons k v .fnil => "\"" ++ jsonEscape k ++ "\"" ++ ksep ++ jdump isep ksep v
  | .fcons k v tl =>
    "\"" ++ jsonEscape k ++ "\"" ++ ksep ++ jdump isep ksep v ++ isep ++ jdump isep ksep tl

/-- Recursively sort every dict's fields by key: `json.dumps(v, sort_keys=True)`
serializes exactly `canon v` in insertion order. -/
def canon : JValue → JValue
  | .null => .null
  | .bool b => .bool b
  | .str s => .str s
  | .int n => .int n
  | .arr xs => .arr (canon xs)
  | .anil => .anil
  | .acons h tl => .acons (canon h) (canon tl)
  | .obj fs => .obj (ofFields (sortPairs (toFields (canon fs))))
  | .fnil => .fnil
  | .fcons k v tl => .fcons k (canon v) (canon tl)

/-! ## UTF-8 and SHA-256 (`.encode("utf-8")`, `hashlib.sha256`) -/

/-- UTF-8 encoding of one character, as a list of byte values. -/
def utf8Char (c : Char) : List Nat :=
  let n := c.toNat
  if n < 0x80 then [n]
  else if n < 0x800 then [0xC0 ||| (n >>> 6), 0x80 ||| (n &&& 0x3F)]
  else if n < 0x10000 then
    [0xE0 ||| (n >>> 12), 0x80 ||| ((n >>> 6) &&& 0x3F), 0x80 ||| (n &&& 0x3F)]
  else
    [0xF0 ||| (n >>> 18), 0x80 ||| ((n >>> 12) &&& 0x3F),
     0x80 ||| ((n >>> 6) &&& 0x3F), 0x80 ||| (n &&& 0x3F)]

/-- `s.encode("utf-8")` as a list of byte values. -/
def utf8Bytes (s : String) : List Nat := s.data.flatMap utf8Char

/-- Truncate to a 32-bit word. -/
def w32 (x : Nat) : Nat := x % 4294967296

/-- 32-bit modular addition. -/
def wadd (a b : Nat) : Nat := (a + b) % 4294967296

/-- 32-bit complement. -/
def wnot (x : Nat) : Nat := 4294967295 - (x % 4294967296)

/-- 32-bit right rotation (argument assumed `< 2^32`). -/
def rotr32 (x n : Nat) : Nat := w32 ((x >>> n) ||| (x <<< (32 - n)))

/-- SHA-256 Σ₀. -/
def bsig0 (x : Nat) : Nat := (rotr32 x 2) ^^^ (rotr32 x 13) ^^^ (rotr32 x 22)

/-- SHA-256 Σ₁. -/
def bsig1 (x : Nat) : Nat := (rotr32 x 6) ^^^ (rotr32 x 11) ^^^ (rotr32 x 25)

/-- SHA-256 σ₀. -/
def ssig0 (x : Nat) : Nat := (rotr32 x 7) ^^^ (rotr32 x 18) ^^^ (x >>> 3)

/-- SHA-256 σ₁. -/
def ssig1 (x : Nat) : Nat := (rotr32 x 17) ^^^ (rotr32 x 19) ^^^ (x >>> 10)

/-- SHA-256 Ch. -/
def chf (x y z : Nat) : Nat := (x &&& y) ^^^ ((wnot x) &&& z)

/-- SHA-256 Maj. -/
def majf (x y z : Nat) : Nat := (x &&& y) ^^^ (x &&& z) ^^^ (y &&& z)

/-- SHA-256 round constants (FIPS 180-4 section 4.2.2, in decimal). -/
def shaK : List Nat := [
  1116352408, 1899447441, 3049323471, 3921009573, 961987163, 1508970993,
  2453635748, 2870763221, 3624381080, 310598401, 607225278, 1426881987,
  1925078388, 2162078206, 2614888103, 3248222580, 3835390401, 4022224774,
  264347078, 604807628, 770255983, 1249150122, 1555081692, 1996064986,
  2554220882, 2821834349, 2952996808, 3210313671, 3336571891, 3584528711,
  113926993, 338241895, 666307205, 773529912, 1294757372, 1396182291,
  1695183700, 1986661051, 2177026350, 2456956037, 2730485921, 2820302411,
  3259730800, 3345764771, 3516065817, 3600352804, 4094571909, 275423344,
  430227734, 506948616, 659060556, 883997877, 958139571, 1322822218,
  1537002063, 1747873779, 1955562222, 2024104815, 2227730452, 2361852424,
  2428436474, 2756734187, 3204031479, 3329325298]

/-- Message padding: append `0x80`, zeros, and the 64-bit big-endian bit length. -/
def padBytes (msg : List Nat) : List Nat :=
  let l := msg.length
  let r := (l + 1) % 64
  let k := if r ≤ 56 then 56 - r else 120 - r
  let bitLen := 8 * l
  msg ++ [0x80] ++ List.replicate k 0 ++
    [(bitLen >>> 56) % 256, (bitLen >>> 48) % 256, (bitLen >>> 40) % 256, (bitLen >>> 32) % 256,
     (bitLen >>> 24) % 256, (bitLen >>> 16) % 256, (bitLen >>> 8) % 256, bitLen % 256]

/-- Group bytes into big-endian 32-bit words. -/
def toWords : List Nat → List Nat
  | b0 :: b1 :: b2 :: b3 :: rest => (((b0 * 256 + b1) * 256 + b2) * 256 + b3) :: toWords rest
  | _ => []

/-- Group words into 16-word blocks. -/
def toBlocks : List Nat → List (List Nat)
  | w0 :: w1 :: w2 :: w3 :: w4 :: w5 :: w6 :: w7 ::
    w8 :: w9 :: w10 :: w11 :: w12 :: w13 :: w14 :: w15 :: rest =>
      [w0, w1, w2, w3, w4, w5, w6, w7, w8, w9, w10, w11, w12, w13, w14, w15] :: toBlocks rest
  | _ => []

/-- Extend a 16-word block to the 64-word message schedule. -/
def extendW (w : Array Nat) : Array Nat :=
  (List.range 48).foldl (fun w i =>
    let t := i + 16
    w.push (wadd (wadd (ssig1 w[t-2]!) w[t-7]!) (wadd (ssig0 w[t-15]!) w[t-16]!))) w

/-- The eight SHA-256 working variables. -/
structure H8 where
  a : Nat
  b : Nat
  c : Nat
  d : Nat
  e : Nat
  f : Nat
  g : Nat
  h : Nat
deriving DecidableEq, Repr

/-- One SHA-256 compression step over a 16-word block. -/
def compress (hs : H8) (block : List Nat) : H8 :=
  let w := extendW (List.toArray block)
  let r := (List.range 64).foldl (fun (s : H8) i =>
    let t1 := wadd (wadd (wadd s.h (bsig1 s.e)) (wadd (chf s.e s.f s.g) (shaK[i]!))) (w[i]!)
    let t2 := wadd (bsig0 s.a) (majf s.a s.b s.c)
    ⟨wadd t1 t2, s.a, s.b, s.c, wadd s.d t1, s.e, s.f, s.g⟩) hs
  ⟨wadd hs.a r.a, wadd hs.b r.b, wadd hs.c r.c, wadd hs.d r.d,
   wadd hs.e r.e, wadd hs.f r.f, wadd hs.g r.g, wadd hs.h r.h⟩

/-- SHA-256 of a byte list, as eight 32-bit words. -/
def sha256 (msg : List Nat) : List Nat :=
  let blocks := toBlocks (toWords (padBytes msg))
  let h := blocks.foldl compress
    ⟨1779033703, 3144134277, 1013904242, 2773480762,
      1359893119, 2600822924, 528734635, 1541459225⟩
  [h.a, h.b, h.c, h.d, h.e, h.f, h.g, h.h]

/-- Lower-case hex rendering of one 32-bit word. -/
def wordHex (w : Nat) : List Char :=
  [hexChar ((w >>> 28) % 16), hexChar ((w >>> 24) % 16), hexChar ((w >>> 20) % 16),
   hexChar ((w >>> 16) % 16), hexChar ((w >>> 12) % 16), hexChar ((w >>> 8) % 16),
   hexChar ((w >>> 4) % 16), hexChar (w % 16)]

/-- `hashlib.sha256(bytes).hexdigest()`. -/
def sha256Hex (msg : List Nat) : String := ⟨(sha256 msg).flatMap wordHex⟩

/-! ## The script's helpers (`publish_content.py`) -/

/-- `SEP = "#"`, the separator used in FQIDs written to DynamoDB keys. -/
def SEP : String := "#"

/-- `_sha256_short(obj)`: sha256 hex digest of
`json.dumps(obj, ensure_ascii=False, separators=(",", ":"), sort_keys=True).encode("utf-8")`,
truncated to its first 16 characters. -/
def sha256Short (v : JValue) : String :=
  ⟨((sha256 (utf8Bytes (jdump "," ":" (canon v)))).flatMap wordHex).take 16⟩

/-- Errors that abort the run: `_die` (stderr diagnostic + `sys.exit(1)`),
a re-raised botocore `ClientError` from a store client, or an uncaught
Python `TypeError`/`ValueError` (e.g. `int()` or `len()` on a bad value). -/
inductive RErr where
  | died (msg : String)
  | storeError (code : String)
  | typeError (msg : String)
deriving DecidableEq, Repr

/-- Equality of `Except` results is decidable when both sides are. -/
instance {ε α : Type} [DecidableEq ε] [DecidableEq α] : DecidableEq (Except ε α)
  | .ok a, .ok b =>
    if h : a = b then isTrue (by rw [h]) else isFalse (by intro hh; cases hh; exact h rfl)
  | .ok _, .error _ => isFalse (by intro hh; cases hh)
  | .error _, .ok _ => isFalse (by intro hh; cases hh)
  | .error e1, .error e2 =>
    if h : e1 = e2 then isTrue (by rw [h]) else isFalse (by intro hh; cases hh; exact h rfl)

/-- `int(v)` in the `Except` monad. -/
def pyIntE (v : JValue) : Except RErr Int :=
  match pyInt v with
  | some n => .ok n
  | none => .error (.typeError "int()")

/-- `len(v)` in the `Except` monad. -/
def pyLenE (v : JValue) : Except RErr Nat :=
  match pyLen v with
  | some n => .ok n
  | none => .error (.typeError "len()")

/-! ## Filesystem tree model

`_publish` only observes the tree through `iterdir`/`glob`/`exists`, so the
tree is modelled as data: a unit directory knows its name, whether a YAML
document exists inside it and/or as a sibling file, and its `episodes`
subdirectory (absent or a list of episode directories); an episode directory
knows its name, its inner YAML document, and its `activities` subdirectory
(absent or a list of `a_*.yaml` files given by stem and parsed contents). -/

/-- An activity file `<stem>.yaml` inside an `activities` directory. -/
structure ActFile where
  stem : String
  yaml : Yaml
deriving DecidableEq, Repr

/-- An episode directory. -/
structure EpDir where
  name : String
  yamlInside : Option Yaml
  activities : Option (List ActFile)
deriving DecidableEq, Repr

/-- A unit directory. -/
structure UnitDir where
  name : String
  yamlInside : Option Yaml
  yamlSibling : Option Yaml
  episodes : Option (List EpDir)
deriving DecidableEq, Repr

/-- `_discover_unit_yaml`: the document named after the unit directory inside
it, else the sibling file of the same name, else `_die`. (`_load_yaml` is
folded in: the model stores parsed documents.) -/
def discoverUnitYaml (u : UnitDir) : Except RErr Yaml :=
  match u.yamlInside with
  | some y => .ok y
  | none =>
    match u.yamlSibling with
    | some y => .ok y
    | none => .error (.died ("Unit YAML not found for " ++ u.name))

/-- `_discover_episode_yaml`: the document named after the episode directory
inside it, else `_die`. -/
def discoverEpisodeYaml (e : EpDir) : Except RErr Yaml :=
  match e.yamlInside with
  | some y => .ok y
  | none => .error (.died ("Episode YAML not found: " ++ e.name ++ "/" ++ e.name ++ ".yaml"))

/-- `_list_activity_yaml`: files matching `activities/a_*.yaml`, sorted by
path; `[]` when the `activities` directory is absent. -/
def listActivityYaml (e : EpDir) : List ActFile :=
  match e.activities with
  | none => []
  | some files => sortKey (fun f => f.stem) (files.filter (fun f => strStarts "a_" f.stem))

/-- `_build_manifest(unit_id, episode_id, a_yaml)`. Note: `id` is read with no
fallback (`a_yaml.get("id")` — `None` when absent), `title` defaults to that
value, `version` to `int(...get("version", 1))`, `locale` to `"en-US"`,
`questions` to `[]`; `activityFqId` joins with `/`. Field order is the dict
literal's insertion order. -/
def buildManifest (unitId episodeId : JValue) (aYaml : Yaml) : Except RErr Yaml := do
  let aid := ygetD aYaml "id" .null
  let title := ygetD aYaml "title" aid
  let version ← pyIntE (ygetD aYaml "version" (.int 1))
  let locale := ygetD aYaml "locale" (.str "en-US")
  let questions := ygetD aYaml "questions" (jarr [])
  let total ← pyLenE questions
  .ok [("unitId", unitId),
       ("episodeId", episodeId),
       ("activityId", aid),
       ("activityFqId", .str (pyStr unitId ++ "/" ++ pyStr episodeId ++ "/" ++ pyStr aid)),
       ("title", title),
       ("version", .int version),
       ("locale", locale),
       ("total", .int total),
       ("questions", questions)]

/-! ## Store clients -/

/-- An S3 bucket: keys to stored JSON values (the bytes are determined by the
value, so the value is stored). -/
abbrev S3Store := List (String × JValue)

/-- Overwrite-or-append at a key (`bucket[key] = value`). -/
def sput : S3Store → String → JValue → S3Store
  | [], k, v => [(k, v)]
  | e :: t, k, v => if e.1 = k then (k, v) :: t else e :: sput t k v

/-- Look up a key. -/
def sget : S3Store → String → Option JValue
  | [], _ => none
  | e :: t, k => if e.1 = k then some e.2 else sget t k

/-- `_s3_put_json(s3, bucket, key, obj, dry)`: serializes with
`json.dumps(obj, ensure_ascii=False)`; in dry mode only logs the target key
and payload byte count; otherwise stores the object and logs success.
Returns the updated bucket and the lines printed. -/
def s3PutJson (s3 : S3Store) (bucket key : String) (obj : JValue) (dry : Bool) :
    S3Store × List String :=
  let body := utf8Bytes (jdump ", " ": " obj)
  if dry then
    (s3, ["[DRY] S3 PUT s3://" ++ bucket ++ "/" ++ key ++ " (" ++ toString body.length ++ " bytes)"])
  else
    (sput s3 key obj, ["[OK ] S3 PUT s3://" ++ bucket ++ "/" ++ key])

/-- A DynamoDB composite key `(PK, SK)`. -/
abbrev DKey := String × String

/-- The DynamoDB table: composite keys to items. -/
abbrev DStore := List (DKey × Yaml)

/-- The composite key of an item (its `PK`/`SK` attributes). -/
def itemKey (item : Yaml) : DKey :=
  (pyStr (ygetD item "PK" .null), pyStr (ygetD item "SK" .null))

/-- `put_item`: overwrite-or-append at the item's composite key. -/
def dput : DStore → DKey → Yaml → DStore
  | [], k, v => [(k, v)]
  | e :: t, k, v => if e.1 = k then (k, v) :: t else e :: dput t k v

/-- Look up a composite key. -/
def dget : DStore → DKey → Option Yaml
  | [], _ => none
  | e :: t, k => if e.1 = k then some e.2 else dget t k

/-- DynamoDB's `#v <= :newv` comparison between stored attribute values:
true only for two numbers in order (mismatched types compare false). -/
def jleNum : JValue → JValue → Bool
  | .int a, .int b => a ≤ b
  | _, _ => false

/-- The condition `attribute_not_exists(#v) OR #v <= :newv` with `#v` bound to
`version` and `:newv` to the new item's `version`, evaluated against the
record currently at the item's composite key. -/
def guardHolds (store : DStore) (item : Yaml) : Bool :=
  match dget store (itemKey item) with
  | none => true
  | some old =>
    match yget old "version" with
    | none => true
    | some oldv => jleNum oldv (ygetD item "version" .null)

/-- The observable outcome of one `_ddb_put_live` call. -/
inductive PutOutcome where
  | ok
  | skip
  | dryRun
deriving DecidableEq, Repr

/-- The botocore error code raised when a conditional write's condition fails. -/
def CCF : String := "ConditionalCheckFailedException"

/-- The `[OK ] DDB PUT ...` line. -/
def okLine (item : Yaml) : String :=
  "[OK ] DDB PUT " ++ pyStr (ygetD item "PK" .null) ++ " " ++ pyStr (ygetD item "SK" .null)

/-- The `[SKIP] ...` line printed when the conditional check fails. -/
def skipLine (item : Yaml) : String :=
  "[SKIP] Newer/equal version exists for " ++ pyStr (ygetD item "PK" .null) ++ " " ++
    pyStr (ygetD item "SK" .null)

/-- The `[DRY] DDB PUT ...` line (key plus `json.dumps(item, ensure_ascii=False)`). -/
def dryLine (item : Yaml) : String :=
  "[DRY] DDB PUT " ++ pyStr (ygetD item "PK" .null) ++ " " ++ pyStr (ygetD item "SK" .null) ++
    " -> " ++ jdump ", " ": " (.obj (ofFields item))

/-- The fault-free behaviour of `table.put_item(**kwargs)` as driven by
`_ddb_put_live`: the condition is attached only when `guard_version` is set
AND the item carries a `version` attribute; a failed condition raises
`ConditionalCheckFailedException`, which the caller turns into a logged skip. -/
def ddbPutCore (store : DStore) (item : Yaml) (guardVersion : Bool) :
    DStore × PutOutcome × List String :=
  if guardVersion && (yget item "version").isSome then
    if guardHolds store item then (dput store (itemKey item) item, .ok, [okLine item])
    else (store, .skip, [skipLine item])
  else (dput store (itemKey item) item, .ok, [okLine item])

/-- `_ddb_put_live(table, item, guard_version, dry)`. `fault` injects a
store-level `ClientError` (permission, network, throttling) from the
`table.put_item` call: the code catches only `ConditionalCheckFailedException`
(logged as a skip) and re-raises everything else, aborting the run. In dry
mode only the intended key and record content are logged — the table is never
consulted, so the condition is not evaluated. -/
def ddbPutLive (store : DStore) (item : Yaml) (guardVersion dry : Bool)
    (fault : Option String) : Except RErr (DStore × PutOutcome × List String) :=
  if dry then .ok (store, .dryRun, [dryLine item])
  else
    match fault with
    | some code =>
      if code == CCF then .ok (store, .skip, [skipLine item])
      else .error (.storeError code)
    | none => .ok (ddbPutCore store item guardVersion)

/-! ## The orchestrator (`_publish`) -/

/-- The run's configuration: bucket, S3 key prefix, dry-run flag, the string
rendering of the root path (for the `Root not found` diagnostic), and the
value `int(time.time())` reads during the run. -/
structure Ctx where
  bucket : String
  pfx : String
  dry : Bool
  root : String
  t : Int
deriving DecidableEq, Repr

/-- The run's evolving observable state: the DynamoDB table, the S3 bucket,
the lines printed so far, and the outcome of each guarded Activity
`_ddb_put_live` call in traversal order. -/
structure RunOut where
  ddb : DStore
  s3 : S3Store
  logs : List String
  acts : List PutOutcome
deriving DecidableEq, Repr

/-- The Unit LiveRecord dict literal (lines 106–115). -/
def unitItem (t : Int) (unitId unitTitle unitContent : JValue)
    (localEpIds fqEpIds : List String) : Yaml :=
  [("PK", .str ("UNIT#" ++ pyStr unitId)),
   ("SK", .str "LIVE"),
   ("entityType", .str "UNIT_LIVE"),
   ("title", unitTitle),
   ("content", unitContent),
   ("episodeIds", jarr (localEpIds.map .str)),
   ("episodeFqIds", jarr (fqEpIds.map .str)),
   ("updatedAt", .int t)]

/-- The Episode LiveRecord dict literal (lines 132–142). -/
def episodeItem (t : Int) (unitId episodeId episodeTitle : JValue)
    (localActIds fqActIds : List String) : Yaml :=
  [("PK", .str ("EPISODE#" ++ pyStr unitId ++ SEP ++ pyStr episodeId)),
   ("SK", .str "LIVE"),
   ("entityType", .str "EPISODE_LIVE"),
   ("unitId", unitId),
   ("episodeId", episodeId),
   ("title", episodeTitle),
   ("activityIds", jarr (localActIds.map .str)),
   ("activityFqIds", jarr (fqActIds.map .str)),
   ("updatedAt", .int t)]

/-- The Activity LiveRecord dict literal (lines 158–172). -/
def activityItem (t : Int) (bucket s3Key : String)
    (unitId episodeId activityId activityTitle locale totalQuestions : JValue)
    (version : Int) : Yaml :=
  [("PK", .str ("ACTIVITY#" ++ pyStr unitId ++ SEP ++ pyStr episodeId ++ SEP ++ pyStr activityId)),
   ("SK", .str "LIVE"),
   ("entityType", .str "ACTIVITY_LIVE"),
   ("unitId", unitId),
   ("episodeId", episodeId),
   ("activityId", activityId),
   ("activityFqid", .str (pyStr unitId ++ SEP ++ pyStr episodeId ++ SEP ++ pyStr activityId)),
   ("title", activityTitle),
   ("locale", locale),
   ("manifestS3Key", .str ("s3://" ++ bucket ++ "/" ++ s3Key)),
   ("totalQuestions", totalQuestions),
   ("version", .int version),
   ("updatedAt", .int t)]

/-- The per-activity body of `_publish`'s innermost loop (lines 146–173):
resolve id/title/version, build and hash the manifest, store it under the
content-addressed key, then conditionally write the Activity LiveRecord. -/
def runActivity (ctx : Ctx) (unitId episodeId : JValue) (f : ActFile) (st : RunOut) :
    Except RErr RunOut := do
  let aYaml := f.yaml
  let activityId := orDefault (yget aYaml "id") (.str f.stem)
  let activityTitle := ygetD aYaml "title" activityId
  let version ← pyIntE (ygetD aYaml "version" (.int 1))
  let manifest ← buildManifest unitId episodeId aYaml
  let mhash := sha256Short (.obj (ofFields manifest))
  let s3Key := ctx.pfx ++ "/" ++ pyStr unitId ++ "/" ++ pyStr episodeId ++ "/" ++
    pyStr activityId ++ "/v" ++ pyStr (ygetD manifest "version" .null) ++
    "/manifest-" ++ mhash ++ ".json"
  let (s3Store, s3Logs) := s3PutJson st.s3 ctx.bucket s3Key (.obj (ofFields manifest)) ctx.dry
  let item := activityItem ctx.t ctx.bucket s3Key unitId episodeId activityId activityTitle
    (ygetD manifest "locale" (.str "en-US")) (ygetD manifest "total" .null) version
  let (ddbStore, outcome, ddbLogs) ← ddbPutLive st.ddb item true ctx.dry none
  .ok ⟨ddbStore, s3Store, st.logs ++ s3Logs ++ ddbLogs, st.acts ++ [outcome]⟩

/-- The activity loop. -/
def runActsList (ctx : Ctx) (unitId episodeId : JValue) :
    List ActFile → RunOut → Except RErr RunOut
  | [], st => .ok st
  | f :: rest, st => do
    let st1 ← runActivity ctx unitId episodeId f st
    runActsList ctx unitId episodeId rest st1

/-- The per-episode body of `_publish`'s middle loop (lines 122–173):
discover the episode document, write the Episode LiveRecord unconditionally,
then process the sorted activity files. -/
def runEpisode (ctx : Ctx) (unitId : JValue) (e : EpDir) (st : RunOut) :
    Except RErr RunOut := do
  let epYaml ← discoverEpisodeYaml e
  let episodeId := orDefault (yget epYaml "id") (.str e.name)
  let episodeTitle := ygetD epYaml "title" episodeId
  let acts := listActivityYaml e
  let localActIds := acts.map (fun f => f.stem)
  let fqActIds := acts.map (fun f => pyStr unitId ++ SEP ++ pyStr episodeId ++ SEP ++ f.stem)
  let item := episodeItem ctx.t unitId episodeId episodeTitle localActIds fqActIds
  let (ddb1, _, logs1) ← ddbPutLive st.ddb item false ctx.dry none
  runActsList ctx unitId episodeId acts ⟨ddb1, st.s3, st.logs ++ logs1, st.acts⟩

/-- The episode loop. -/
def runEpsList (ctx : Ctx) (unitId : JValue) : List EpDir → RunOut → Except RErr RunOut
  | [], st => .ok st
  | e :: rest, st => do
    let st1 ← runEpisode ctx unitId e st
    runEpsList ctx unitId rest st1

/-- The episode directories of a unit: subdirectories of `episodes/` whose
name starts with `e_`, sorted by name; `[]` when `episodes/` is absent
(lines 100–103 guard the listing with `episodes_root.exists()`). -/
def sortedEpDirs (u : UnitDir) : List EpDir :=
  match u.episodes with
  | none => []
  | some eps => sortKey (fun e => e.name) (eps.filter (fun e => strStarts "e_" e.name))

/-- The per-unit body of `_publish`'s outer loop (lines 90–173): discover the
unit document, write the Unit LiveRecord unconditionally, then either warn
and continue (no `episodes/` directory) or process the sorted episodes. -/
def runUnit (ctx : Ctx) (u : UnitDir) (st : RunOut) : Except RErr RunOut := do
  let unitYaml ← discoverUnitYaml u
  let unitId := orDefault (yget unitYaml "id") (.str u.name)
  let unitTitle := ygetD unitYaml "title" unitId
  let unitContent := ygetD unitYaml "content" (.str "")
  let eps := sortedEpDirs u
  let localEpIds := eps.map (fun e => e.name)
  let fqEpIds := eps.map (fun e => pyStr unitId ++ SEP ++ e.name)
  let item := unitItem ctx.t unitId unitTitle unitContent localEpIds fqEpIds
  let (ddb1, _, logs1) ← ddbPutLive st.ddb item false ctx.dry none
  let st1 : RunOut := ⟨ddb1, st.s3, st.logs ++ logs1, st.acts⟩
  match u.episodes with
  | none => .ok { st1 with logs := st1.logs ++ ["[WARN] No episodes folder for unit " ++ pyStr unitId] }
  | some _ => runEpsList ctx unitId eps st1

/-- The unit loop. -/
def runUnitsList (ctx : Ctx) : List UnitDir → RunOut → Except RErr RunOut
  | [], st => .ok st
  | u :: rest, st => do
    let st1 ← runUnit ctx u st
    runUnitsList ctx rest st1

/-- `_publish(root, ...)`: die if the root directory is absent, else process
the unit subdirectories whose name starts with `u_`, sorted by name, and
print the final `[DONE]` line. `root = none` models a missing root path. -/
def runPublish (ctx : Ctx) (root : Option (List UnitDir)) (ddb : DStore) (s3 : S3Store) :
    Except RErr RunOut :=
  match root with
  | none => .error (.died ("Root not found: " ++ ctx.root))
  | some units =>
    (runUnitsList ctx (sortKey (fun u => u.name) (units.filter (fun u => strStarts "u_" u.name)))
        ⟨ddb, s3, [], []⟩).map
      (fun st => { st with logs := st.logs ++ ["[DONE] publish complete."] })

/-- The process exit code determined by a run's result: `_die` exits 1, any
uncaught exception also terminates with a non-zero code, success exits 0. -/
def exitCode : Except RErr RunOut → Nat
  | .ok _ => 0
  | .error _ => 1

/-- The diagnostic `_die` prints on the error stream, when the run died. -/
def stderrLines : Except RErr RunOut → List String
  | .error (.died m) => ["[ERROR] " ++ m]
  | _ => []

/-! ## The run as a trace of store operations

`_publish` interleaves building items with effecting them, but the operations
it performs (and whether it dies) depend only on the tree, never on the store
state — the store only influences each conditional put's outcome. The
following mirrors each run function by the list of operations it performs,
which the idempotence analysis uses. -/

/-- One observable store operation (or warning) performed by the run. -/
inductive Op where
  | s3put (key : String) (obj : JValue)
  | ddbput (item : Yaml) (guard : Bool)
  | warn (msg : String)
deriving DecidableEq, Repr

/-- Effect one operation on the run state (fault-free backends). -/
def applyOp (ctx : Ctx) (st : RunOut) : Op → RunOut
  | .s3put key obj =>
    let r := s3PutJson st.s3 ctx.bucket key obj ctx.dry
    ⟨st.ddb, r.1, st.logs ++ r.2, st.acts⟩
  | .ddbput item guard =>
    if ctx.dry then
      ⟨st.ddb, st.s3, st.logs ++ [dryLine item],
        if guard then st.acts ++ [.dryRun] else st.acts⟩
    else
      let r := ddbPutCore st.ddb item guard
      ⟨r.1, st.s3, st.logs ++ r.2.2, if guard then st.acts ++ [r.2.1] else st.acts⟩
  | .warn msg => ⟨st.ddb, st.s3, st.logs ++ [msg], st.acts⟩

/-- Effect a list of operations in order. -/
def applyOps (ctx : Ctx) (ops : List Op) (st : RunOut) : RunOut :=
  ops.foldl (applyOp ctx) st

/-- The operations `runActivity` performs. -/
def opsOfActivity (ctx : Ctx) (unitId episodeId : JValue) (f : ActFile) :
    Except RErr (List Op) := do
  let aYaml := f.yaml
  let activityId := orDefault (yget aYaml "id") (.str f.stem)
  let activityTitle := ygetD aYaml "title" activityId
  let version ← pyIntE (ygetD aYaml "version" (.int 1))
  let manifest ← buildManifest unitId episodeId aYaml
  let mhash := sha256Short (.obj (ofFields manifest))
  let s3Key := ctx.pfx ++ "/" ++ pyStr unitId ++ "/" ++ pyStr episodeId ++ "/" ++
    pyStr activityId ++ "/v" ++ pyStr (ygetD manifest "version" .null) ++
    "/manifest-" ++ mhash ++ ".json"
  let item := activityItem ctx.t ctx.bucket s3Key unitId episodeId activityId activityTitle
    (ygetD manifest "locale" (.str "en-US")) (ygetD manifest "total" .null) version
  .ok [.s3put s3Key (.obj (ofFields manifest)), .ddbput item true]

/-- The operations of the activity loop. -/
def opsOfActs (ctx : Ctx) (unitId episodeId : JValue) :
    List ActFile → Except RErr (List Op)
  | [] => .ok []
  | f :: rest => do
    let o1 ← opsOfActivity ctx unitId episodeId f
    let o2 ← opsOfActs ctx unitId episodeId rest
    .ok (o1 ++ o2)

/-- The operations `runEpisode` performs. -/
def opsOfEpisode (ctx : Ctx) (unitId : JValue) (e : EpDir) : Except RErr (List Op) := do
  let epYaml ← discoverEpisodeYaml e
  let episodeId := orDefault (yget epYaml "id") (.str e.name)
  let episodeTitle := ygetD epYaml "title" episodeId
  let acts := listActivityYaml e
  let localActIds := acts.map (fun f => f.stem)
  let fqActIds := acts.map (fun f => pyStr unitId ++ SEP ++ pyStr episodeId ++ SEP ++ f.stem)
  let item := episodeItem ctx.t unitId episodeId episodeTitle localActIds fqActIds
  let rest ← opsOfActs ctx unitId episodeId acts
  .ok (.ddbput item false :: rest)

/-- The operations of the episode loop. -/
def opsOfEps (ctx : Ctx) (unitId : JValue) : List EpDir → Except RErr (List Op)
  | [] => .ok []
  | e :: es => do
    let o1 ← opsOfEpisode ctx unitId e
    let o2 ← opsOfEps ctx unitId es
    .ok (o1 ++ o2)

/-- The operations `runUnit` performs. -/
def opsOfUnit (ctx : Ctx) (u : UnitDir) : Except RErr (List Op) := do
  let unitYaml ← discoverUnitYaml u
  let unitId := orDefault (yget unitYaml "id") (.str u.name)
  let unitTitle := ygetD unitYaml "title" unitId
  let unitContent := ygetD unitYaml "content" (.str "")
  let eps := sortedEpDirs u
  let localEpIds := eps.map (fun e => e.name)
  let fqEpIds := eps.map (fun e => pyStr unitId ++ SEP ++ e.name)
  let item := unitItem ctx.t unitId unitTitle unitContent localEpIds fqEpIds
  match u.episodes with
  | none => .ok [.ddbput item false, .warn ("[WARN] No episodes folder for unit " ++ pyStr unitId)]
  | some _ => do
    let rest ← opsOfEps ctx unitId eps
    .ok (.ddbput item false :: rest)

/-- The operations of the unit loop. -/
def opsOfUnits (ctx : Ctx) : List UnitDir → Except RErr (List Op)
  | [] => .ok []
  | u :: us => do
    let o1 ← opsOfUnit ctx u
    let o2 ← opsOfUnits ctx us
    .ok (o1 ++ o2)

/-- The operations of the whole publish run (over the filtered, sorted units). -/
def opsOfPublish (ctx : Ctx) (units : List UnitDir) : Except RErr (List Op) :=
  opsOfUnits ctx (sortKey (fun u => u.name) (units.filter (fun u => strStarts "u_" u.name)))

/-- The condition `attribute_not_exists(#v) OR #v <= :newv` evaluated against
a record value (so that `guardHolds s item = condV (dget s (itemKey item)) item`). -/
def condV (v : Option Yaml) (item : Yaml) : Bool :=
  match v with
  | none => true
  | some old =>
    match yget old "version" with
    | none => true
    | some oldv => jleNum oldv (ygetD item "version" .null)

/-- Whether an operation writes the DynamoDB record at key `k`. -/
def touches (k : DKey) : Op → Bool
  | .ddbput item _ => itemKey item = k
  | _ => false

/-- The per-key transition an operation induces on the record at its key. -/
def stepK : Op → Option Yaml → Option Yaml
  | .ddbput item guard, v =>
    if guard && (yget item "version").isSome then
      if condV v item then some item else v
    else some item
  | _, v => v

/-- The per-key composition of a trace, restricted to operations at key `k`. -/
def foldK (k : DKey) (ops : List Op) (v : Option Yaml) : Option Yaml :=
  ops.foldl (fun v op => if touches k op then stepK op v else v) v

/-- An operation that overwrites key `k` unconditionally (an unguarded put, or
a guarded put whose item lacks a `version` attribute). -/
def writesAlways (k : DKey) : Op → Bool
  | .ddbput item g => decide (itemKey item = k) && !(g && (yget item "version").isSome)
  | _ => false

/-- Whether an operation writes the S3 object at key `k`. -/
def stouches (k : String) : Op → Bool
  | .s3put key _ => key = k
  | _ => false

/-- The per-key S3 transition of an operation at its key. -/
def sstepK : Op → Option JValue → Option JValue
  | .s3put _ obj, _ => some obj
  | _, v => v

/-- The per-key S3 composition of a trace. -/
def sfoldK (k : String) (ops : List Op) (v : Option JValue) : Option JValue :=
  ops.foldl (fun v op => if stouches k op then sstepK op v else v) v

/-- The composite keys of the guarded puts of a trace, in order. -/
def guardedKeys (ops : List Op) : List DKey :=
  ops.filterMap (fun op => match op with
    | .ddbput item true => some (itemKey item)
    | _ => none)

/-- The composite keys of the unguarded puts of a trace. -/
def unguardedKeys (ops : List Op) : List DKey :=
  ops.filterMap (fun op => match op with
    | .ddbput item false => some (itemKey item)
    | _ => none)

/-- Whether an optional attribute value is present and an integer. -/
def isIntVersion : Option JValue → Bool
  | some (.int _) => true
  | _ => false

/-- Every guarded put of the trace carries an integer `version` attribute (as
every Activity LiveRecord built by the pipeline does). -/
def opShape : Op → Bool
  | .ddbput item true => isIntVersion (yget item "version")
  | _ => true

/-- The side conditions for the idempotence theorem, decidably: guarded keys
are pairwise distinct, disjoint from unguarded keys, guarded items carry
integer versions, and the guarded keys are initially absent from the table. -/
def sideCond (ddb0 : DStore) (ops : List Op) : Bool :=
  decide (guardedKeys ops).Nodup
    && decide (∀ kk ∈ guardedKeys ops, kk ∉ unguardedKeys ops)
    && ops.all opShape
    && decide (∀ kk ∈ guardedKeys ops, dget ddb0 kk = none)

/-- The outcomes a trace records when every guarded put succeeds. -/
def okOutcomes (ops : List Op) : List PutOutcome :=
  ops.filterMap (fun op => match op with
    | .ddbput _ true => some .ok
    | _ => none)

/-- The stored `version` attribute at a composite key, when it is an integer. -/
def versionAt (s : DStore) (k : DKey) : Option Int :=
  match dget s k with
  | none => none
  | some old =>
    match yget old "version" with
    | some (.int n) => some n
    | _ => none

/-- A sequence of guarded (non-dry, fault-free) `_ddb_put_live` calls applied
to a table, each with `guard_version=True`. -/
def putSeq (items : List Yaml) (s : DStore) : DStore :=
  items.foldl (fun s it => (ddbPutCore s it true).1) s

/-! ## Concrete fixtures used by the witnesses -/

/-- A run configuration with the script's default bucket/prefix, dry-run off. -/
def sampleCtx : Ctx :=
  ⟨"liwanag-content-bucket", "activities", false, "../content/units", 1700000000⟩

/-- A minimal Activity LiveRecord carrying version `n` at a fixed key. -/
def miniActItem (n : Int) : Yaml :=
  [("PK", .str "ACTIVITY#u_1#e_1#a_1"), ("SK", .str "LIVE"),
   ("entityType", .str "ACTIVITY_LIVE"), ("version", .int n)]

/-- A table holding `miniActItem 5` at its key. -/
def miniStore5 : DStore := [(("ACTIVITY#u_1#e_1#a_1", "LIVE"), miniActItem 5)]

/-- Activity file `a_1.yaml`: version 1, two questions. -/
def a1File : ActFile :=
  ⟨"a_1", [("version", .int 1),
    ("questions", jarr [jobj [("q", .str "q1")], jobj [("q", .str "q2")]])]⟩

/-- Activity file `a_2.yaml`: version 3, no title, no questions. -/
def a2File : ActFile := ⟨"a_2", [("version", .int 3)]⟩

/-- Episode directory `e_1` with documents `a_1.yaml`, `a_2.yaml`. -/
def e1Dir : EpDir := ⟨"e_1", some [("title", .str "Basics")], some [a1File, a2File]⟩

/-- Unit directory `u_1` titled `Intro`. -/
def u1Dir : UnitDir := ⟨"u_1", some [("title", .str "Intro")], none, some [e1Dir]⟩

/-- The end-to-end sample tree from the design's scenario. -/
def sampleTree : List UnitDir := [u1Dir]

/-- A unit directory with no document inside nor as a sibling. -/
def u9 : UnitDir := ⟨"u_2", none, none, none⟩

/-- An episode directory with no document inside. -/
def ep9 : EpDir := ⟨"e_9", none, none⟩

/-- A tree whose only activity declares version 1 (stale relative to
`miniStore5`, which already holds version 5 at the same key). -/
def skipTree : List UnitDir :=
  [⟨"u_1", some [], none, some [⟨"e_1", some [], some [⟨"a_1", [("version", .int 1)]⟩]⟩]⟩]

/-- An activity file whose declared id contains the reserved separator. -/
def sepIdFile : ActFile := ⟨"a_1", [("id", .str "a#1")]⟩

/-- Whether an operation is a guarded put at key `k`. -/
def gTouch (k : DKey) : Op → Bool
  | .ddbput item true => itemKey item = k
  | _ => false

/-- Whether an operation is an unguarded put at key `k`. -/
def uTouch (k : DKey) : Op → Bool
  | .ddbput item false => itemKey item = k
  | _ => false

/-- The concrete operation trace of publishing the sample tree. -/
def sampleOps : List Op := (opsOfPublish sampleCtx sampleTree).toOption.getD []

end Liwanag

/-! # General lemmas about the store model -/

namespace Liwanag

theorem bindOk {ε α β : Type} (a : α) (f : α → Except ε β) :
    (Except.ok a >>= f : Except ε β) = f a := rfl

theorem bindErr {ε α β : Type} (e : ε) (f : α → Except ε β) :
    (Except.error e >>= f : Except ε β) = Except.error e := rfl

theorem dget_dput_self (s : DStore) (k : DKey) (v : Yaml) : dget (dput s k v) k = some v := by
  induction s with
  | nil => simp [dput, dget]
  | cons e t ih =>
    by_cases he : e.1 = k
    · simp [dput, dget, he]
    · simp [dput, dget, he, ih]

theorem dget_dput_ne (s : DStore) (k k' : DKey) (v : Yaml) (h : k' ≠ k) :
    dget (dput s k v) k' = dget s k' := by
  induction s with
  | nil => simp [dput, dget, Ne.symm h]
  | cons e t ih =>
    by_cases he : e.1 = k
    · subst he
      simp [dput, dget, Ne.symm h]
    · simp [dput, dget, he, ih]

theorem sget_sput_self (s : S3Store) (k : String) (v : JValue) : sget (sput s k v) k = some v := by
  induction s with
  | nil => simp [sput, sget]
  | cons e t ih =>
    by_cases he : e.1 = k
    · simp [sput, sget, he]
    · simp [sput, sget, he, ih]

theorem sget_sput_ne (s : S3Store) (k k' : String) (v : JValue) (h : k' ≠ k) :
    sget (sput s k v) k' = sget s k' := by
  induction s with
  | nil => simp [sput, sget, Ne.symm h]
  | cons e t ih =>
    by_cases he : e.1 = k
    · subst he
      simp [sput, sget, Ne.symm h]
    · simp [sput, sget, he, ih]

theorem str_append_ne_right (p a b : String) (h : a ≠ b) : p ++ a ≠ p ++ b := by
  intro hh
  have h2 := congrArg String.data hh
  rw [String.data_append, String.data_append] at h2
  have h3 := List.append_cancel_left h2
  exact h (congrArg String.mk h3)

theorem str_ne_of_head (a b : String) (ca cb : Char)
    (ha : a.data.head? = some ca) (hb : b.data.head? = some cb) (h : ca ≠ cb) : a ≠ b := by
  intro hh
  rw [hh] at ha
  rw [ha] at hb
  cases hb
  exact h rfl

theorem char_eq_of_toNat_eq {a b : Char} (h : a.toNat = b.toNat) : a = b := by
  have h2 := congrArg Char.ofNat h
  rwa [Char.ofNat_toNat, Char.ofNat_toNat] at h2

theorem charsLt_irrefl (l : List Char) : charsLt l l = false := by
  induction l with
  | nil => rfl
  | cons c t ih => simp [charsLt, Nat.lt_irrefl, ih]

theorem charsLt_trans {a b c : List Char} (h1 : charsLt a b = true)
    (h2 : charsLt b c = true) : charsLt a c = true := by
  induction a generalizing b c with
  | nil =>
    cases b with
    | nil => simp [charsLt] at h1
    | cons y ys =>
      cases c with
      | nil => simp [charsLt] at h2
      | cons z zs => rfl
  | cons x xs ih =>
    cases b with
    | nil => simp [charsLt] at h1
    | cons y ys =>
      cases c with
      | nil => simp [charsLt] at h2
      | cons z zs =>
        simp only [charsLt] at h1 h2 ⊢
        by_cases hxy : x.toNat < y.toNat
        · by_cases hyz : y.toNat < z.toNat
          · simp [show x.toNat < z.toNat by omega]
          · by_cases hzy : z.toNat < y.toNat
            · simp [hyz, hzy] at h2
            · simp [show x.toNat < z.toNat by omega]
        · by_cases hyx : y.toNat < x.toNat
          · simp [hxy, hyx] at h1
          · simp only [hxy, hyx, if_false] at h1
            by_cases hyz : y.toNat < z.toNat
            · simp [show x.toNat < z.toNat by omega]
            · by_cases hzy : z.toNat < y.toNat
              · simp [hyz, hzy] at h2
              · simp only [hyz, hzy, if_false] at h2
                simp [show ¬ x.toNat < z.toNat by omega, show ¬ z.toNat < x.toNat by omega,
                  ih h1 h2]

theorem charsLt_conn {a b : List Char} (h1 : charsLt a b = false)
    (h2 : charsLt b a = false) : a = b := by
  induction a generalizing b with
  | nil =>
    cases b with
    | nil => rfl
    | cons y ys => simp [charsLt] at h1
  | cons x xs ih =>
    cases b with
    | nil => simp [charsLt] at h2
    | cons y ys =>
      simp only [charsLt] at h1 h2
      by_cases hxy : x.toNat < y.toNat
      · simp [hxy] at h1
      · by_cases hyx : y.toNat < x.toNat
        · simp [hyx] at h2
        · simp only [hxy, hyx, if_false] at h1 h2
          rw [char_eq_of_toNat_eq (show x.toNat = y.toNat by omega), ih h1 h2]

theorem strLe_total (a b : String) : strLe a b = true ∨ strLe b a = true := by
  unfold strLe
  by_cases h1 : charsLt b.data a.data = true
  · right
    by_cases h2 : charsLt a.data b.data = true
    · have h3 := charsLt_trans h2 h1
      rw [charsLt_irrefl] at h3
      cases h3
    · simp [Bool.not_eq_true] at h2
      simp [h2]
  · left
    simp [Bool.not_eq_true] at h1
    simp [h1]

theorem strLe_trans {a b c : String} (h1 : strLe a b = true) (h2 : strLe b c = true) :
    strLe a c = true := by
  unfold strLe at h1 h2 ⊢
  simp only [Bool.not_eq_true'] at h1 h2 ⊢
  by_cases hca : charsLt c.data a.data = true
  · by_cases hbc : charsLt b.data c.data = true
    · have h3 := charsLt_trans hbc hca
      rw [h1] at h3
      cases h3
    · simp only [Bool.not_eq_true] at hbc
      have hbceq : b.data = c.data := charsLt_conn hbc h2
      rw [← hbceq] at hca
      rw [h1] at hca
      cases hca
  · simpa using hca

theorem strLe_antisymm {a b : String} (h1 : strLe a b = true) (h2 : strLe b a = true) :
    a = b := by
  unfold strLe at h1 h2
  simp only [Bool.not_eq_true'] at h1 h2
  exact congrArg String.mk (charsLt_conn h2 h1)

theorem insertKey_perm {α : Type} (key : α → String) (x : α) (l : List α) :
    (insertKey key x l).Perm (x :: l) := by
  induction l with
  | nil => exact List.Perm.refl _
  | cons y ys ih =>
    unfold insertKey
    by_cases h : strLe (key x) (key y) = true
    · simp [h]
    · simp only [h, if_false]
      exact (ih.cons y).trans (List.Perm.swap x y ys)

theorem sortKey_perm {α : Type} (key : α → String) (l : List α) :
    (sortKey key l).Perm l := by
  induction l with
  | nil => exact List.Perm.refl _
  | cons x xs ih =>
    unfold sortKey
    exact (insertKey_perm key x (sortKey key xs)).trans (ih.cons x)

theorem mem_insertKey {α : Type} (key : α → String) {x z : α} {l : List α}
    (h : z ∈ insertKey key x l) : z = x ∨ z ∈ l := by
  have h2 := (insertKey_perm key x l).mem_iff.mp h
  simpa using h2

theorem insertKey_sorted {α : Type} (key : α → String) (x : α) (l : List α)
    (h : List.Pairwise (fun a b => strLe (key a) (key b) = true) l) :
    List.Pairwise (fun a b => strLe (key a) (key b) = true) (insertKey key x l) := by
  induction l with
  | nil => simp [insertKey]
  | cons y ys ih =>
    cases h with
    | cons hy hys =>
      unfold insertKey
      by_cases hxy : strLe (key x) (key y) = true
      · simp only [hxy, if_true]
        refine List.Pairwise.cons ?_ (List.Pairwise.cons hy hys)
        intro z hz
        rcases List.mem_cons.mp hz with rfl | hz2
        · exact hxy
        · exact strLe_trans hxy (hy z hz2)
      · simp only [hxy, if_false]
        refine List.Pairwise.cons ?_ (ih hys)
        intro z hz
        rcases mem_insertKey key hz with h | hz2
        · rw [h]
          rcases strLe_total (key x) (key y) with h1 | h1
          · exact absurd h1 hxy
          · exact h1
        · exact hy z hz2

theorem sortKey_sorted {α : Type} (key : α → String) (l : List α) :
    List.Pairwise (fun a b => strLe (key a) (key b) = true) (sortKey key l) := by
  induction l with
  | nil => simp [sortKey]
  | cons x xs ih =>
    unfold sortKey
    exact insertKey_sorted key x (sortKey key xs) ih

theorem sorted_perm_nodupkeys_eq :
    ∀ {l1 l2 : List (String × JValue)},
      List.Pairwise (fun a b => strLe a.1 b.1 = true) l1 →
      List.Pairwise (fun a b => strLe a.1 b.1 = true) l2 →
      l1.Perm l2 → (l1.map Prod.fst).Nodup → l1 = l2 := by
  intro l1
  induction l1 with
  | nil =>
    intro l2 _ _ hp _
    exact (hp.symm.eq_nil).symm
  | cons a t ih =>
    intro l2 hs1 hs2 hp hnd
    cases l2 with
    | nil => simpa using hp.eq_nil
    | cons b t2 =>
      have hab : a = b := by
        have hain : a ∈ b :: t2 := hp.mem_iff.mp (by simp)
        have hbin : b ∈ a :: t := hp.symm.mem_iff.mp (by simp)
        rcases List.mem_cons.mp hain with h | h
        · exact h
        · rcases List.mem_cons.mp hbin with h2 | h2
          · exact h2.symm
          · exfalso
            cases hs1 with
            | cons h1a h1t =>
              cases hs2 with
              | cons h2a h2t =>
                have hr1 : strLe a.1 b.1 = true := h1a b h2
                have hr2 : strLe b.1 a.1 = true := h2a a h
                have hkey : a.1 = b.1 := strLe_antisymm hr1 hr2
                simp only [List.map_cons, List.nodup_cons] at hnd
                exact hnd.1 (hkey ▸ List.mem_map_of_mem Prod.fst h2)
      subst hab
      have ht : t.Perm t2 := hp.cons_inv
      cases hs1 with
      | cons h1a h1t =>
        cases hs2 with
        | cons h2a h2t =>
          simp only [List.map_cons, List.nodup_cons] at hnd
          rw [ih h1t h2t ht hnd.2]

theorem sortPairs_perm_eq {l1 l2 : List (String × JValue)} (hp : l1.Perm l2)
    (hnd : (l1.map Prod.fst).Nodup) : sortPairs l1 = sortPairs l2 := by
  unfold sortPairs
  refine sorted_perm_nodupkeys_eq (sortKey_sorted _ l1) (sortKey_sorted _ l2) ?_ ?_
  · exact (sortKey_perm _ l1).trans (hp.trans (sortKey_perm _ l2).symm)
  · rw [List.Perm.nodup_iff (List.Perm.map Prod.fst (sortKey_perm _ l1))]
    exact hnd

theorem toFields_canon_ofFields (fs : List (String × JValue)) :
    toFields (canon (ofFields fs)) = fs.map (fun p => (p.1, canon p.2)) := by
  induction fs with
  | nil => rfl
  | cons p tl ih =>
    cases p with
    | mk k v => simp [ofFields, canon, toFields, ih]

theorem versionAt_some (s : DStore) (k : DKey) (n : Int) :
    versionAt s k = some n ↔
      ∃ old, dget s k = some old ∧ yget old "version" = some (.int n) := by
  unfold versionAt
  cases hd : dget s k with
  | none => simp
  | some old =>
    cases hv : yget old "version" with
    | none => simp [hv]
    | some w => cases w <;> simp [hv]

theorem versionAt_core_mono (s : DStore) (it : Yaml) (k : DKey) (n v : Int)
    (hv : yget it "version" = some (.int v)) (h0 : versionAt s k = some n) :
    ∃ m, versionAt (ddbPutCore s it true).1 k = some m ∧ n ≤ m := by
  obtain ⟨old, hold, holdv⟩ := (versionAt_some s k n).mp h0
  have hcore : ddbPutCore s it true =
      (if guardHolds s it then (dput s (itemKey it) it, .ok, [okLine it])
       else (s, .skip, [skipLine it])) := by
    unfold ddbPutCore
    rw [hv]
    simp
  by_cases hk : itemKey it = k
  · have hg : guardHolds s it = decide (n ≤ v) := by
      unfold guardHolds
      rw [hk, hold]
      simp only [holdv]
      unfold ygetD
      rw [hv]
      rfl
    by_cases hle : n ≤ v
    · refine ⟨v, ?_, hle⟩
      rw [hcore, hg, decide_eq_true hle]
      simp only [if_true]
      rw [versionAt_some]
      exact ⟨it, by rw [hk]; exact dget_dput_self s k it, hv⟩
    · refine ⟨n, ?_, le_refl n⟩
      rw [hcore, hg, decide_eq_false hle]
      simp only [Bool.false_eq_true, if_false]
      exact h0
  · refine ⟨n, ?_, le_refl n⟩
    rw [hcore]
    by_cases hg : guardHolds s it
    · simp only [hg, if_true]
      rw [versionAt_some]
      exact ⟨old, by rw [dget_dput_ne s (itemKey it) k it (fun hh => hk hh.symm)]; exact hold,
        holdv⟩
    · simp only [hg, if_false]
      exact h0

theorem applyOps_append (ctx : Ctx) (l1 l2 : List Op) (st : RunOut) :
    applyOps ctx (l1 ++ l2) st = applyOps ctx l2 (applyOps ctx l1 st) := by
  unfold applyOps
  exact List.foldl_append _ _ _ _

theorem sim_activity (ctx : Ctx) (uid eid : JValue) (f : ActFile) (st : RunOut) :
    runActivity ctx uid eid f st
      = (opsOfActivity ctx uid eid f).map (fun ops => applyOps ctx ops st) := by
  cases hv : pyIntE (ygetD f.yaml "version" (.int 1)) with
  | error e => simp only [runActivity, opsOfActivity, hv, bindErr]; rfl
  | ok v =>
    cases hb : buildManifest uid eid f.yaml with
    | error e2 => simp only [runActivity, opsOfActivity, hv, bindOk, hb, bindErr]; rfl
    | ok m =>
      cases hdry : ctx.dry with
      | true =>
        simp only [runActivity, opsOfActivity, hv, hb, bindOk, hdry, ddbPutLive, if_true,
          Except.map, applyOps, List.foldl_cons, List.foldl_nil, applyOp, Bool.false_eq_true,
          if_false]
      | false =>
        simp only [runActivity, opsOfActivity, hv, hb, bindOk, hdry, ddbPutLive,
          Bool.false_eq_true, if_false, Except.map, applyOps, List.foldl_cons, List.foldl_nil,
          applyOp, if_true]

theorem sim_acts (ctx : Ctx) (uid eid : JValue) (fs : List ActFile) : ∀ st : RunOut,
    runActsList ctx uid eid fs st
      = (opsOfActs ctx uid eid fs).map (fun ops => applyOps ctx ops st) := by
  induction fs with
  | nil => intro st; rfl
  | cons f rest ih =>
    intro st
    show (runActivity ctx uid eid f st >>= fun st1 => runActsList ctx uid eid rest st1)
      = ((opsOfActivity ctx uid eid f >>= fun o1 =>
          opsOfActs ctx uid eid rest >>= fun o2 => Except.ok (o1 ++ o2)).map
          (fun ops => applyOps ctx ops st))
    rw [sim_activity]
    cases h1 : opsOfActivity ctx uid eid f with
    | error e => rfl
    | ok o1 =>
      rw [bindOk]
      show runActsList ctx uid eid rest (applyOps ctx o1 st) = _
      rw [ih (applyOps ctx o1 st)]
      cases h2 : opsOfActs ctx uid eid rest with
      | error e => rfl
      | ok o2 =>
        rw [bindOk]
        show Except.ok (applyOps ctx o2 (applyOps ctx o1 st)) = Except.ok (applyOps ctx (o1 ++ o2) st)
        rw [applyOps_append]

theorem sim_episode (ctx : Ctx) (uid : JValue) (e : EpDir) (st : RunOut) :
    runEpisode ctx uid e st
      = (opsOfEpisode ctx uid e).map (fun ops => applyOps ctx ops st) := by
  cases hd : discoverEpisodeYaml e with
  | error err => simp only [runEpisode, opsOfEpisode, hd, bindErr]; rfl
  | ok epy =>
    cases hdry : ctx.dry with
    | true =>
      simp only [runEpisode, opsOfEpisode, hd, bindOk, ddbPutLive, hdry, if_true]
      rw [sim_acts]
      cases h2 : opsOfActs ctx uid (orDefault (yget epy "id") (.str e.name)) (listActivityYaml e) with
      | error err => rfl
      | ok o2 =>
        simp only [bindOk, Except.map, applyOps, List.foldl_cons, List.foldl_nil, applyOp, hdry,
          if_true, Bool.false_eq_true, if_false]
    | false =>
      simp only [runEpisode, opsOfEpisode, hd, bindOk, ddbPutLive, hdry, Bool.false_eq_true,
        if_false]
      rw [sim_acts]
      cases h2 : opsOfActs ctx uid (orDefault (yget epy "id") (.str e.name)) (listActivityYaml e) with
      | error err => rfl
      | ok o2 =>
        simp only [bindOk, Except.map, applyOps, List.foldl_cons, List.foldl_nil, applyOp, hdry,
          Bool.false_eq_true, if_false, if_true]

theorem sim_eps (ctx : Ctx) (uid : JValue) (es : List EpDir) : ∀ st : RunOut,
    runEpsList ctx uid es st
      = (opsOfEps ctx uid es).map (fun ops => applyOps ctx ops st) := by
  induction es with
  | nil => intro st; rfl
  | cons e rest ih =>
    intro st
    show (runEpisode ctx uid e st >>= fun st1 => runEpsList ctx uid rest st1)
      = ((opsOfEpisode ctx uid e >>= fun o1 =>
          opsOfEps ctx uid rest >>= fun o2 => Except.ok (o1 ++ o2)).map
          (fun ops => applyOps ctx ops st))
    rw [sim_episode]
    cases h1 : opsOfEpisode ctx uid e with
    | error err => rfl
    | ok o1 =>
      rw [bindOk]
      show runEpsList ctx uid rest (applyOps ctx o1 st) = _
      rw [ih (applyOps ctx o1 st)]
      cases h2 : opsOfEps ctx uid rest with
      | error err => rfl
      | ok o2 =>
        rw [bindOk]
        show Except.ok (applyOps ctx o2 (applyOps ctx o1 st)) = Except.ok (applyOps ctx (o1 ++ o2) st)
        rw [applyOps_append]

theorem sim_unit (ctx : Ctx) (u : UnitDir) (st : RunOut) :
    runUnit ctx u st = (opsOfUnit ctx u).map (fun ops => applyOps ctx ops st) := by
  cases hd : discoverUnitYaml u with
  | error err => simp only [runUnit, opsOfUnit, hd, bindErr]; rfl
  | ok uy =>
    cases heps : u.episodes with
    | none =>
      cases hdry : ctx.dry with
      | true =>
        simp only [runUnit, opsOfUnit, hd, bindOk, heps, ddbPutLive, hdry, if_true,
          Except.map, applyOps, List.foldl_cons, List.foldl_nil, applyOp, Bool.false_eq_true,
          if_false]
      | false =>
        simp only [runUnit, opsOfUnit, hd, bindOk, heps, ddbPutLive, hdry, Bool.false_eq_true,
          if_false, Except.map, applyOps, List.foldl_cons, List.foldl_nil, applyOp, if_true]
    | some eps =>
      cases hdry : ctx.dry with
      | true =>
        simp only [runUnit, opsOfUnit, hd, bindOk, heps, ddbPutLive, hdry, if_true]
        rw [sim_eps]
        cases h2 : opsOfEps ctx (orDefault (yget uy "id") (.str u.name)) (sortedEpDirs u) with
        | error err => rfl
        | ok o2 =>
          simp only [bindOk, Except.map, applyOps, List.foldl_cons, List.foldl_nil, applyOp, hdry,
            if_true, Bool.false_eq_true, if_false]
      | false =>
        simp only [runUnit, opsOfUnit, hd, bindOk, heps, ddbPutLive, hdry, Bool.false_eq_true,
          if_false]
        rw [sim_eps]
        cases h2 : opsOfEps ctx (orDefault (yget uy "id") (.str u.name)) (sortedEpDirs u) with
        | error err => rfl
        | ok o2 =>
          simp only [bindOk, Except.map, applyOps, List.foldl_cons, List.foldl_nil, applyOp, hdry,
            Bool.false_eq_true, if_false, if_true]

theorem sim_units (ctx : Ctx) (us : List UnitDir) : ∀ st : RunOut,
    runUnitsList ctx us st
      = (opsOfUnits ctx us).map (fun ops => applyOps ctx ops st) := by
  induction us with
  | nil => intro st; rfl
  | cons u rest ih =>
    intro st
    show (runUnit ctx u st >>= fun st1 => runUnitsList ctx rest st1)
      = ((opsOfUnit ctx u >>= fun o1 =>
          opsOfUnits ctx rest >>= fun o2 => Except.ok (o1 ++ o2)).map
          (fun ops => applyOps ctx ops st))
    rw [sim_unit]
    cases h1 : opsOfUnit ctx u with
    | error err => rfl
    | ok o1 =>
      rw [bindOk]
      show runUnitsList ctx rest (applyOps ctx o1 st) = _
      rw [ih (applyOps ctx o1 st)]
      cases h2 : opsOfUnits ctx rest with
      | error err => rfl
      | ok o2 =>
        rw [bindOk]
        show Except.ok (applyOps ctx o2 (applyOps ctx o1 st)) = Except.ok (applyOps ctx (o1 ++ o2) st)
        rw [applyOps_append]

theorem sim_publish (ctx : Ctx) (units : List UnitDir) (ddb : DStore) (s3 : S3Store) :
    runPublish ctx (some units) ddb s3
      = (opsOfPublish ctx units).map (fun ops =>
          let st := applyOps ctx ops ⟨ddb, s3, [], []⟩
          { st with logs := st.logs ++ ["[DONE] publish complete."] }) := by
  simp only [runPublish, opsOfPublish]
  rw [sim_units]
  cases h : opsOfUnits ctx (sortKey (fun u => u.name) (units.filter (fun u => strStarts "u_" u.name))) with
  | error err => rfl
  | ok ops => rfl

/-! ## Per-key projection of a trace -/

theorem guardHolds_condV (s : DStore) (item : Yaml) :
    guardHolds s item = condV (dget s (itemKey item)) item := rfl

theorem stepK_ddb (item : Yaml) (guard : Bool) (v : Option Yaml) :
    stepK (Op.ddbput item guard) v =
      if guard && (yget item "version").isSome then
        (if condV v item then some item else v)
      else some item := rfl

theorem stepK_idem (op : Op) (v : Option Yaml) : stepK op (stepK op v) = stepK op v := by
  cases op with
  | s3put k o => rfl
  | warn m => rfl
  | ddbput item guard =>
    simp only [stepK_ddb]
    by_cases hc : (guard && (yget item "version").isSome) = true
    · rw [if_pos hc, if_pos hc]
      by_cases hv : condV v item = true
      · rw [if_pos hv, ite_self]
      · rw [if_neg hv, if_neg hv]
    · rw [if_neg hc, if_neg hc]

theorem dget_applyOp (ctx : Ctx) (st : RunOut) (op : Op) (kk : DKey)
    (hdry : ctx.dry = false) :
    dget (applyOp ctx st op).ddb kk =
      if touches kk op then stepK op (dget st.ddb kk) else dget st.ddb kk := by
  cases op with
  | s3put k o => simp [applyOp, touches]
  | warn m => simp [applyOp, touches]
  | ddbput item guard =>
    simp only [applyOp, hdry, Bool.false_eq_true, if_false]
    by_cases hk : itemKey item = kk
    · subst hk
      have ht : touches (itemKey item) (Op.ddbput item guard) = true := by
        simp [touches]
      rw [if_pos ht, stepK_ddb]
      show dget (ddbPutCore st.ddb item guard).1 (itemKey item) = _
      unfold ddbPutCore
      by_cases hc : (guard && (yget item "version").isSome) = true
      · rw [if_pos hc, if_pos hc]
        by_cases hg : guardHolds st.ddb item = true
        · have hcv : condV (dget st.ddb (itemKey item)) item = true := by
            rw [← guardHolds_condV]; exact hg
          rw [if_pos hg, if_pos hcv]
          exact dget_dput_self st.ddb (itemKey item) item
        · have hcv : ¬ condV (dget st.ddb (itemKey item)) item = true := by
            rw [← guardHolds_condV]; exact hg
          rw [if_neg hg, if_neg hcv]
      · rw [if_neg hc, if_neg hc]
        exact dget_dput_self st.ddb (itemKey item) item
    · have ht : ¬ touches kk (Op.ddbput item guard) = true := by
        simp [touches, hk]
      rw [if_neg ht]
      show dget (ddbPutCore st.ddb item guard).1 kk = dget st.ddb kk
      unfold ddbPutCore
      by_cases hc : (guard && (yget item "version").isSome) = true
      · rw [if_pos hc]
        by_cases hg : guardHolds st.ddb item = true
        · rw [if_pos hg]
          exact dget_dput_ne st.ddb (itemKey item) kk item (fun hh => hk hh.symm)
        · rw [if_neg hg]
      · rw [if_neg hc]
        exact dget_dput_ne st.ddb (itemKey item) kk item (fun hh => hk hh.symm)

theorem dget_applyOps (ctx : Ctx) (kk : DKey) (hdry : ctx.dry = false) :
    ∀ (ops : List Op) (st : RunOut),
      dget (applyOps ctx ops st).ddb kk = foldK kk ops (dget st.ddb kk) := by
  intro ops
  induction ops with
  | nil => intro st; rfl
  | cons op rest ih =>
    intro st
    show dget (applyOps ctx rest (applyOp ctx st op)).ddb kk
      = foldK kk rest (if touches kk op then stepK op (dget st.ddb kk) else dget st.ddb kk)
    rw [ih, dget_applyOp ctx st op kk hdry]

theorem sget_applyOp (ctx : Ctx) (st : RunOut) (op : Op) (kk : String)
    (hdry : ctx.dry = false) :
    sget (applyOp ctx st op).s3 kk =
      if stouches kk op then sstepK op (sget st.s3 kk) else sget st.s3 kk := by
  cases op with
  | warn m => simp [applyOp, stouches]
  | ddbput item guard =>
    simp only [applyOp, hdry, Bool.false_eq_true, if_false]
    simp [stouches]
  | s3put key obj =>
    simp only [applyOp, s3PutJson, hdry, Bool.false_eq_true, if_false]
    by_cases hk : key = kk
    · subst hk
      have ht : stouches key (Op.s3put key obj) = true := by simp [stouches]
      rw [if_pos ht]
      show sget (sput st.s3 key obj) key = sstepK (Op.s3put key obj) (sget st.s3 key)
      rw [sget_sput_self]
      rfl
    · have ht : ¬ stouches kk (Op.s3put key obj) = true := by simp [stouches, hk]
      rw [if_neg ht]
      show sget (sput st.s3 key obj) kk = sget st.s3 kk
      exact sget_sput_ne st.s3 key kk obj (fun hh => hk hh.symm)

theorem sget_applyOps (ctx : Ctx) (kk : String) (hdry : ctx.dry = false) :
    ∀ (ops : List Op) (st : RunOut),
      sget (applyOps ctx ops st).s3 kk = sfoldK kk ops (sget st.s3 kk) := by
  intro ops
  induction ops with
  | nil => intro st; rfl
  | cons op rest ih =>
    intro st
    show sget (applyOps ctx rest (applyOp ctx st op)).s3 kk
      = sfoldK kk rest (if stouches kk op then sstepK op (sget st.s3 kk) else sget st.s3 kk)
    rw [ih, sget_applyOp ctx st op kk hdry]

/-! ## Fixpoint analysis of the per-key folds -/

theorem foldK_append (kk : DKey) (l1 l2 : List Op) (v : Option Yaml) :
    foldK kk (l1 ++ l2) v = foldK kk l2 (foldK kk l1 v) := by
  unfold foldK
  exact List.foldl_append _ _ _ _

theorem foldK_no_touch (kk : DKey) : ∀ (ops : List Op) (v : Option Yaml),
    (∀ op ∈ ops, touches kk op = false) → foldK kk ops v = v := by
  intro ops
  induction ops with
  | nil => intro v _; rfl
  | cons op rest ih =>
    intro v h
    have h0 : touches kk op = false := h op (List.mem_cons_self op rest)
    show foldK kk rest (if touches kk op then stepK op v else v) = v
    rw [h0]
    simp only [Bool.false_eq_true, if_false]
    exact ih v (fun o ho => h o (List.mem_cons_of_mem op ho))

theorem stepK_writesAlways (kk : DKey) (op : Op) (h : writesAlways kk op = true) :
    touches kk op = true ∧ ∃ it, ∀ v, stepK op v = some it := by
  cases op with
  | s3put k o => simp [writesAlways] at h
  | warn m => simp [writesAlways] at h
  | ddbput item guard =>
    simp only [writesAlways, Bool.and_eq_true, decide_eq_true_eq, Bool.not_eq_true'] at h
    obtain ⟨hk, hng⟩ := h
    refine ⟨by simp [touches, hk], item, fun v => ?_⟩
    rw [stepK_ddb, hng]
    simp

theorem foldK_const (kk : DKey) : ∀ ops : List Op,
    (∃ op ∈ ops, writesAlways kk op = true) →
    ∀ v w, foldK kk ops v = foldK kk ops w := by
  intro ops
  induction ops with
  | nil =>
    rintro ⟨op, hop, _⟩ v w
    exact absurd hop (List.not_mem_nil op)
  | cons op rest ih =>
    intro h v w
    show foldK kk rest (if touches kk op then stepK op v else v)
      = foldK kk rest (if touches kk op then stepK op w else w)
    by_cases hw : writesAlways kk op = true
    · obtain ⟨ht, it, hit⟩ := stepK_writesAlways kk op hw
      rw [if_pos ht, if_pos ht, hit v, hit w]
    · obtain ⟨op', hop', hw'⟩ := h
      rcases List.mem_cons.mp hop' with heq | hmem
      · subst heq
        exact absurd hw' hw
      · exact ih ⟨op', hmem, hw'⟩ _ _

theorem sfoldK_no_touch (kk : String) : ∀ (ops : List Op) (v : Option JValue),
    (∀ op ∈ ops, stouches kk op = false) → sfoldK kk ops v = v := by
  intro ops
  induction ops with
  | nil => intro v _; rfl
  | cons op rest ih =>
    intro v h
    have h0 : stouches kk op = false := h op (List.mem_cons_self op rest)
    show sfoldK kk rest (if stouches kk op then sstepK op v else v) = v
    rw [h0]
    simp only [Bool.false_eq_true, if_false]
    exact ih v (fun o ho => h o (List.mem_cons_of_mem op ho))

theorem sfoldK_const (kk : String) : ∀ ops : List Op,
    (∃ op ∈ ops, stouches kk op = true) →
    ∀ v w, sfoldK kk ops v = sfoldK kk ops w := by
  intro ops
  induction ops with
  | nil =>
    rintro ⟨op, hop, _⟩ v w
    exact absurd hop (List.not_mem_nil op)
  | cons op rest ih =>
    rintro ⟨op', hop', hs'⟩ v w
    show sfoldK kk rest (if stouches kk op then sstepK op v else v)
      = sfoldK kk rest (if stouches kk op then sstepK op w else w)
    by_cases hs : stouches kk op = true
    · rw [if_pos hs, if_pos hs]
      cases op with
      | s3put k obj => rfl
      | ddbput item g => simp [stouches] at hs
      | warn m => simp [stouches] at hs
    · rcases List.mem_cons.mp hop' with heq | hmem
      · subst heq
        exact absurd hs' hs
      · rw [if_neg hs, if_neg hs]
        exact ih ⟨op', hmem, hs'⟩ v w

theorem sfoldK_idem (kk : String) (ops : List Op) (v : Option JValue) :
    sfoldK kk ops (sfoldK kk ops v) = sfoldK kk ops v := by
  by_cases hta : ∃ op ∈ ops, stouches kk op = true
  · exact sfoldK_const kk ops hta _ _
  · push_neg at hta
    have hnt : ∀ op ∈ ops, stouches kk op = false := by
      intro op hm
      cases hs : stouches kk op
      · rfl
      · exact absurd hs (hta op hm)
    rw [sfoldK_no_touch kk ops _ hnt, sfoldK_no_touch kk ops v hnt]

/-! ## The guarded keys of a trace -/

theorem mem_guardedKeys (kk : DKey) (ops : List Op) :
    kk ∈ guardedKeys ops ↔ ∃ op ∈ ops, gTouch kk op = true := by
  unfold guardedKeys
  rw [List.mem_filterMap]
  constructor
  · rintro ⟨op, hmem, heq⟩
    refine ⟨op, hmem, ?_⟩
    cases op with
    | s3put k o => simp at heq
    | warn m => simp at heq
    | ddbput item g =>
      cases g
      · simp at heq
      · simp only [Option.some.injEq] at heq
        simp [gTouch, heq]
  · rintro ⟨op, hmem, ht⟩
    refine ⟨op, hmem, ?_⟩
    cases op with
    | s3put k o => simp [gTouch] at ht
    | warn m => simp [gTouch] at ht
    | ddbput item g =>
      cases g
      · simp [gTouch] at ht
      · simp only [gTouch, decide_eq_true_eq] at ht
        simp [ht]

theorem mem_unguardedKeys (kk : DKey) (ops : List Op) :
    kk ∈ unguardedKeys ops ↔ ∃ op ∈ ops, uTouch kk op = true := by
  unfold unguardedKeys
  rw [List.mem_filterMap]
  constructor
  · rintro ⟨op, hmem, heq⟩
    refine ⟨op, hmem, ?_⟩
    cases op with
    | s3put k o => simp at heq
    | warn m => simp at heq
    | ddbput item g =>
      cases g
      · simp only [Option.some.injEq] at heq
        simp [uTouch, heq]
      · simp at heq
  · rintro ⟨op, hmem, ht⟩
    refine ⟨op, hmem, ?_⟩
    cases op with
    | s3put k o => simp [uTouch] at ht
    | warn m => simp [uTouch] at ht
    | ddbput item g =>
      cases g
      · simp only [uTouch, decide_eq_true_eq] at ht
        simp [ht]
      · simp [uTouch] at ht

theorem touches_cases (kk : DKey) (op : Op) (ht : touches kk op = true) :
    gTouch kk op = true ∨ uTouch kk op = true := by
  cases op with
  | s3put k o => simp [touches] at ht
  | warn m => simp [touches] at ht
  | ddbput item g =>
    cases g
    · right
      simpa [touches, uTouch] using ht
    · left
      simpa [touches, gTouch] using ht

theorem exists_single_guarded (kk : DKey) : ∀ ops : List Op,
    (guardedKeys ops).Nodup → kk ∈ guardedKeys ops →
    ∃ l1 it l2, ops = l1 ++ Op.ddbput it true :: l2 ∧ itemKey it = kk ∧
      (∀ op ∈ l1, gTouch kk op = false) ∧ (∀ op ∈ l2, gTouch kk op = false) := by
  intro ops
  induction ops with
  | nil =>
    intro _ hk
    simp [guardedKeys] at hk
  | cons op rest ih =>
    intro hnd hk
    by_cases hg : gTouch kk op = true
    · cases op with
      | s3put k o => simp [gTouch] at hg
      | warn m => simp [gTouch] at hg
      | ddbput item g =>
        cases g
        · simp [gTouch] at hg
        · simp only [gTouch, decide_eq_true_eq] at hg
          refine ⟨[], item, rest, rfl, hg, fun o ho => absurd ho (List.not_mem_nil o), ?_⟩
          intro o ho
          cases hgo : gTouch kk o
          · rfl
          · exfalso
            have hmem : kk ∈ guardedKeys rest := (mem_guardedKeys kk rest).mpr ⟨o, ho, hgo⟩
            have hstep : guardedKeys (Op.ddbput item true :: rest)
                = itemKey item :: guardedKeys rest := rfl
            rw [hstep, hg] at hnd
            exact (List.nodup_cons.mp hnd).1 hmem
    · have hg' : gTouch kk op = false := by
        cases hgo : gTouch kk op
        · rfl
        · exact absurd hgo hg
      have hk' : kk ∈ guardedKeys rest := by
        obtain ⟨op', hmem, hto⟩ := (mem_guardedKeys kk _).mp hk
        rcases List.mem_cons.mp hmem with heq | hm
        · subst heq
          exact absurd hto hg
        · exact (mem_guardedKeys kk rest).mpr ⟨op', hm, hto⟩
      have hnd' : (guardedKeys rest).Nodup := by
        cases op with
        | s3put k o => exact hnd
        | warn m => exact hnd
        | ddbput item g =>
          cases g
          · exact hnd
          · exact (List.nodup_cons.mp hnd).2
      obtain ⟨l1, it, l2, heq, hkey, h1, h2⟩ := ih hnd' hk'
      refine ⟨op :: l1, it, l2, by rw [heq, List.cons_append], hkey, ?_, h2⟩
      intro o ho
      rcases List.mem_cons.mp ho with he | hm
      · subst he
        exact hg'
      · exact h1 o hm

theorem guarded_unique_of_nodup (kk : DKey) (l1 l2 : List Op) (it : Yaml)
    (hkey : itemKey it = kk)
    (hnd : (guardedKeys (l1 ++ Op.ddbput it true :: l2)).Nodup) :
    (∀ op ∈ l1, gTouch kk op = false) ∧ (∀ op ∈ l2, gTouch kk op = false) := by
  have hsplit : guardedKeys (l1 ++ Op.ddbput it true :: l2)
      = guardedKeys l1 ++ itemKey it :: guardedKeys l2 := by
    unfold guardedKeys
    rw [List.filterMap_append]
    rfl
  rw [hsplit, hkey, List.nodup_append] at hnd
  obtain ⟨hnd1, hnd2, hdisj12⟩ := hnd
  have hk1 : kk ∉ guardedKeys l1 := fun hm => hdisj12 hm (List.mem_cons_self kk _)
  have hk2 : kk ∉ guardedKeys l2 := (List.nodup_cons.mp hnd2).1
  constructor
  · intro op ho
    cases hgo : gTouch kk op
    · rfl
    · exact absurd ((mem_guardedKeys kk l1).mpr ⟨op, ho, hgo⟩) hk1
  · intro op ho
    cases hgo : gTouch kk op
    · rfl
    · exact absurd ((mem_guardedKeys kk l2).mpr ⟨op, ho, hgo⟩) hk2

theorem no_touch_of_side (kk : DKey) (ops l1 l2 : List Op) (it : Yaml)
    (heq : ops = l1 ++ Op.ddbput it true :: l2) (hkey : itemKey it = kk)
    (hdisj : ∀ k ∈ guardedKeys ops, k ∉ unguardedKeys ops)
    (h1 : ∀ op ∈ l1, gTouch kk op = false) (h2 : ∀ op ∈ l2, gTouch kk op = false) :
    (∀ op ∈ l1, touches kk op = false) ∧ (∀ op ∈ l2, touches kk op = false) := by
  have hkg : kk ∈ guardedKeys ops := by
    rw [heq]
    exact (mem_guardedKeys kk _).mpr ⟨Op.ddbput it true,
      List.mem_append_right _ (List.mem_cons_self _ _), by simp [gTouch, hkey]⟩
  have hku : kk ∉ unguardedKeys ops := hdisj kk hkg
  constructor
  · intro op ho
    cases hto : touches kk op
    · rfl
    · rcases touches_cases kk op hto with hg | hu
      · rw [h1 op ho] at hg
        exact absurd hg (by simp)
      · exact absurd ((mem_unguardedKeys kk ops).mpr
          ⟨op, by rw [heq]; exact List.mem_append_left _ ho, hu⟩) hku
  · intro op ho
    cases hto : touches kk op
    · rfl
    · rcases touches_cases kk op hto with hg | hu
      · rw [h2 op ho] at hg
        exact absurd hg (by simp)
      · exact absurd ((mem_unguardedKeys kk ops).mpr
          ⟨op, by rw [heq]; exact List.mem_append_right _ (List.mem_cons_of_mem _ ho), hu⟩) hku

theorem foldK_idem (ops : List Op) (kk : DKey) (v : Option Yaml)
    (hnd : (guardedKeys ops).Nodup)
    (hdisj : ∀ k ∈ guardedKeys ops, k ∉ unguardedKeys ops) :
    foldK kk ops (foldK kk ops v) = foldK kk ops v := by
  by_cases hg : kk ∈ guardedKeys ops
  · obtain ⟨l1, it, l2, heq, hkey, hg1, hg2⟩ := exists_single_guarded kk ops hnd hg
    obtain ⟨ht1, ht2⟩ := no_touch_of_side kk ops l1 l2 it heq hkey hdisj hg1 hg2
    subst heq
    have hfold : ∀ w, foldK kk (l1 ++ Op.ddbput it true :: l2) w
        = stepK (Op.ddbput it true) w := by
      intro w
      rw [foldK_append, foldK_no_touch kk l1 w ht1]
      show foldK kk l2
        (if touches kk (Op.ddbput it true) then stepK (Op.ddbput it true) w else w) = _
      have htt : touches kk (Op.ddbput it true) = true := by simp [touches, hkey]
      rw [if_pos htt]
      exact foldK_no_touch kk l2 _ ht2
    rw [hfold, hfold]
    exact stepK_idem (Op.ddbput it true) v
  · by_cases hta : ∃ op ∈ ops, touches kk op = true
    · obtain ⟨op, hmem, hto⟩ := hta
      have hw : writesAlways kk op = true := by
        rcases touches_cases kk op hto with hgt | hut
        · exact absurd ((mem_guardedKeys kk ops).mpr ⟨op, hmem, hgt⟩) hg
        · cases op with
          | s3put k o => simp [uTouch] at hut
          | warn m => simp [uTouch] at hut
          | ddbput item g =>
            cases g
            · simp only [uTouch, decide_eq_true_eq] at hut
              simp [writesAlways, hut]
            · simp [uTouch] at hut
      exact foldK_const kk ops ⟨op, hmem, hw⟩ _ _
    · push_neg at hta
      have hnt : ∀ op ∈ ops, touches kk op = false := by
        intro op hmem
        cases hto : touches kk op
        · rfl
        · exact absurd hto (hta op hmem)
      rw [foldK_no_touch kk ops _ hnt, foldK_no_touch kk ops v hnt]

/-! ## The outcomes of a replayed trace -/

theorem applyOp_acts_s3 (ctx : Ctx) (st : RunOut) (k : String) (o : JValue) :
    (applyOp ctx st (Op.s3put k o)).acts = st.acts := rfl

theorem applyOp_acts_warn (ctx : Ctx) (st : RunOut) (m : String) :
    (applyOp ctx st (Op.warn m)).acts = st.acts := rfl

theorem applyOp_acts_unguarded (ctx : Ctx) (st : RunOut) (item : Yaml)
    (hdry : ctx.dry = false) :
    (applyOp ctx st (Op.ddbput item false)).acts = st.acts := by
  simp only [applyOp, hdry, Bool.false_eq_true, if_false]

theorem applyOp_acts_guarded (ctx : Ctx) (st : RunOut) (item : Yaml)
    (hdry : ctx.dry = false) :
    (applyOp ctx st (Op.ddbput item true)).acts
      = st.acts ++ [(ddbPutCore st.ddb item true).2.1] := by
  simp only [applyOp, hdry, Bool.false_eq_true, if_false, if_true]

theorem ddbPutCore_ok (s : DStore) (item : Yaml) (hgh : guardHolds s item = true) :
    ddbPutCore s item true = (dput s (itemKey item) item, PutOutcome.ok, [okLine item]) := by
  unfold ddbPutCore
  cases hv : (yget item "version").isSome
  · simp
  · simp [hgh]

theorem okOutcomes_all_ok : ∀ ops : List Op, ∀ a ∈ okOutcomes ops, a = PutOutcome.ok := by
  intro ops
  induction ops with
  | nil =>
    intro a ha
    simp [okOutcomes] at ha
  | cons op rest ih =>
    intro a ha
    cases op with
    | s3put k o => exact ih a ha
    | warn m => exact ih a ha
    | ddbput item g =>
      cases g
      · exact ih a ha
      · rcases List.mem_cons.mp ha with he | hm
        · exact he
        · exact ih a hm

theorem applyOps_acts_ok (ctx : Ctx) (hdry : ctx.dry = false) :
    ∀ (ops : List Op) (st : RunOut),
      (∀ l1 item l2, ops = l1 ++ Op.ddbput item true :: l2 →
        guardHolds (applyOps ctx l1 st).ddb item = true) →
      (applyOps ctx ops st).acts = st.acts ++ okOutcomes ops := by
  intro ops
  induction ops with
  | nil =>
    intro st _
    simp [applyOps, okOutcomes]
  | cons op rest ih =>
    intro st hg
    show (applyOps ctx rest (applyOp ctx st op)).acts = st.acts ++ okOutcomes (op :: rest)
    cases op with
    | s3put k o =>
      rw [ih (applyOp ctx st (Op.s3put k o))
        (fun l1 it l2 heq => hg (Op.s3put k o :: l1) it l2 (by rw [heq, List.cons_append]))]
      rw [applyOp_acts_s3]
      rfl
    | warn m =>
      rw [ih (applyOp ctx st (Op.warn m))
        (fun l1 it l2 heq => hg (Op.warn m :: l1) it l2 (by rw [heq, List.cons_append]))]
      rw [applyOp_acts_warn]
      rfl
    | ddbput item guard =>
      cases guard
      · rw [ih (applyOp ctx st (Op.ddbput item false))
          (fun l1 it l2 heq => hg (Op.ddbput item false :: l1) it l2
            (by rw [heq, List.cons_append]))]
        rw [applyOp_acts_unguarded ctx st item hdry]
        rfl
      · have hgh : guardHolds st.ddb item = true := hg [] item rest rfl
        rw [ih (applyOp ctx st (Op.ddbput item true))
          (fun l1 it l2 heq => hg (Op.ddbput item true :: l1) it l2
            (by rw [heq, List.cons_append]))]
        rw [applyOp_acts_guarded ctx st item hdry, ddbPutCore_ok st.ddb item hgh]
        show st.acts ++ [PutOutcome.ok] ++ okOutcomes rest
          = st.acts ++ okOutcomes (Op.ddbput item true :: rest)
        rw [List.append_assoc]
        rfl

theorem sideCond_parts (ddb0 : DStore) (ops : List Op) (h : sideCond ddb0 ops = true) :
    (guardedKeys ops).Nodup ∧ (∀ kk ∈ guardedKeys ops, kk ∉ unguardedKeys ops)
      ∧ (∀ op ∈ ops, opShape op = true) ∧ (∀ kk ∈ guardedKeys ops, dget ddb0 kk = none) := by
  unfold sideCond at h
  simp only [Bool.and_eq_true, decide_eq_true_eq, List.all_eq_true] at h
  exact ⟨h.1.1.1, h.1.1.2, h.1.2, h.2⟩

theorem ygetD_eq (y : Yaml) (k : String) (d w : JValue) (hw : yget y k = some w) :
    ygetD y k d = w := by
  unfold ygetD
  rw [hw]
  rfl

theorem condV_some_eq (old item : Yaml) (w : JValue)
    (hw : yget old "version" = some w) :
    condV (some old) item = jleNum w (ygetD item "version" JValue.null) := by
  simp only [condV]
  rw [hw]

theorem isIntVersion_true (v : Option JValue) (h : isIntVersion v = true) :
    ∃ n : Int, v = some (JValue.int n) := by
  cases v with
  | none => exact Bool.noConfusion h
  | some w => cases w <;> first | exact ⟨_, rfl⟩ | exact Bool.noConfusion h

theorem guards_hold_first_run (ctx : Ctx) (hdry : ctx.dry = false)
    (ops : List Op) (ddb0 : DStore) (s30 : S3Store)
    (hside : sideCond ddb0 ops = true) :
    ∀ l1 item l2, ops = l1 ++ Op.ddbput item true :: l2 →
      guardHolds (applyOps ctx l1 ⟨ddb0, s30, [], []⟩).ddb item = true := by
  obtain ⟨hnd, hdisj, hshape, habs⟩ := sideCond_parts ddb0 ops hside
  intro l1 item l2 heq
  have hkg : itemKey item ∈ guardedKeys ops := by
    rw [heq]
    exact (mem_guardedKeys _ _).mpr ⟨Op.ddbput item true,
      List.mem_append_right _ (List.mem_cons_self _ _), by simp [gTouch]⟩
  obtain ⟨hg1, hg2⟩ := guarded_unique_of_nodup (itemKey item) l1 l2 item rfl (heq ▸ hnd)
  obtain ⟨ht1, ht2⟩ := no_touch_of_side (itemKey item) ops l1 l2 item heq rfl hdisj hg1 hg2
  rw [guardHolds_condV]
  have hd : dget (applyOps ctx l1 ⟨ddb0, s30, [], []⟩).ddb (itemKey item)
      = dget ddb0 (itemKey item) := by
    rw [dget_applyOps ctx (itemKey item) hdry l1 ⟨ddb0, s30, [], []⟩]
    exact foldK_no_touch (itemKey item) l1 _ ht1
  rw [hd, habs (itemKey item) hkg]
  simp only [condV]

theorem guards_hold_second_run (ctx : Ctx) (hdry : ctx.dry = false)
    (ops : List Op) (ddb0 : DStore) (s30 s31 : S3Store) (ddb1 : DStore)
    (hddb1 : ddb1 = (applyOps ctx ops ⟨ddb0, s30, [], []⟩).ddb)
    (hside : sideCond ddb0 ops = true) :
    ∀ l1 item l2, ops = l1 ++ Op.ddbput item true :: l2 →
      guardHolds (applyOps ctx l1 ⟨ddb1, s31, [], []⟩).ddb item = true := by
  obtain ⟨hnd, hdisj, hshape, habs⟩ := sideCond_parts ddb0 ops hside
  intro l1 item l2 heq
  have hkg : itemKey item ∈ guardedKeys ops := by
    rw [heq]
    exact (mem_guardedKeys _ _).mpr ⟨Op.ddbput item true,
      List.mem_append_right _ (List.mem_cons_self _ _), by simp [gTouch]⟩
  obtain ⟨hg1, hg2⟩ := guarded_unique_of_nodup (itemKey item) l1 l2 item rfl (heq ▸ hnd)
  obtain ⟨ht1, ht2⟩ := no_touch_of_side (itemKey item) ops l1 l2 item heq rfl hdisj hg1 hg2
  have hiv : ∃ n : Int, yget item "version" = some (JValue.int n) := by
    have hsh : opShape (Op.ddbput item true) = true := hshape _ (by
      rw [heq]
      exact List.mem_append_right _ (List.mem_cons_self _ _))
    exact isIntVersion_true (yget item "version") hsh
  obtain ⟨n, hn⟩ := hiv
  have hd1v : dget ddb1 (itemKey item) = some item := by
    rw [hddb1, dget_applyOps ctx (itemKey item) hdry ops ⟨ddb0, s30, [], []⟩]
    show foldK (itemKey item) ops (dget ddb0 (itemKey item)) = some item
    rw [habs (itemKey item) hkg, heq, foldK_append,
      foldK_no_touch (itemKey item) l1 none ht1]
    show foldK (itemKey item) l2
        (if touches (itemKey item) (Op.ddbput item true)
         then stepK (Op.ddbput item true) none else none) = some item
    have htt : touches (itemKey item) (Op.ddbput item true) = true := by simp [touches]
    rw [if_pos htt, stepK_ddb]
    have hc : (true && (yget item "version").isSome) = true := by
      rw [hn]
      rfl
    rw [if_pos hc]
    have hcv : condV none item = true := rfl
    rw [if_pos hcv]
    exact foldK_no_touch (itemKey item) l2 (some item) ht2
  rw [guardHolds_condV]
  have hdl : dget (applyOps ctx l1 ⟨ddb1, s31, [], []⟩).ddb (itemKey item) = some item := by
    rw [dget_applyOps ctx (itemKey item) hdry l1 ⟨ddb1, s31, [], []⟩]
    show foldK (itemKey item) l1 (dget ddb1 (itemKey item)) = some item
    rw [foldK_no_touch (itemKey item) l1 (dget ddb1 (itemKey item)) ht1]
    exact hd1v
  rw [hdl, condV_some_eq item item (JValue.int n) hn,
    ygetD_eq item "version" JValue.null (JValue.int n) hn]
  simp [jleNum]

end Liwanag

/-! # Claims -/

namespace Liwanag

/-- **C1.** For every Activity LiveRecord write with the version guard enabled
(`guard_version=True`, not dry, against a table whose record at the item's
composite key — if any — carries an integer `version` attribute, as every
Activity LiveRecord does): the conditional put succeeds exactly when no record
currently exists at the composite key or the existing record's version is less
than or equal to the new record's version; when the condition fails the call
returns a logged Skip outcome (an `.ok` result, not an error); and any other
store-level failure raised by `put_item` is re-raised as a `StoreError` that
aborts the run. -/
theorem c1_version_guard_semantics (store : DStore) (item : Yaml) (v : Int) (code : String)
    (hver : yget item "version" = some (.int v))
    (hold : ∀ old, dget store (itemKey item) = some old →
      ∃ n : Int, yget old "version" = some (.int n))
    (hcode : code ≠ CCF) :
    (ddbPutLive store item true false none
        = .ok (dput store (itemKey item) item, .ok, [okLine item])
      ↔ dget store (itemKey item) = none ∨
        ∃ old n, dget store (itemKey item) = some old ∧
          yget old "version" = some (.int n) ∧ n ≤ v)
    ∧ (ddbPutLive store item true false none = .ok (store, .skip, [skipLine item])
      ↔ ¬(dget store (itemKey item) = none ∨
        ∃ old n, dget store (itemKey item) = some old ∧
          yget old "version" = some (.int n) ∧ n ≤ v))
    ∧ ddbPutLive store item true false (some code) = .error (.storeError code) := by
  have hguard : guardHolds store item = true ↔
      (dget store (itemKey item) = none ∨
        ∃ old n, dget store (itemKey item) = some old ∧
          yget old "version" = some (.int n) ∧ n ≤ v) := by
    unfold guardHolds
    cases hd : dget store (itemKey item) with
    | none => simp
    | some old =>
      obtain ⟨n, hn⟩ := hold old hd
      have hyv : ygetD item "version" .null = .int v := by
        unfold ygetD
        rw [hver]
        rfl
      simp only [hn, hyv, jleNum, decide_eq_true_eq]
      constructor
      · intro hle
        exact Or.inr ⟨old, n, rfl, hn, hle⟩
      · rintro (hc | ⟨old', n', ho', hn', hle'⟩)
        · exact absurd hc (by simp)
        · cases ho'
          rw [hn] at hn'
          cases hn'
          exact hle'
  have hres : ddbPutLive store item true false none = .ok (ddbPutCore store item true) := by
    simp [ddbPutLive]
  have hcore : ddbPutCore store item true =
      (if guardHolds store item then (dput store (itemKey item) item, .ok, [okLine item])
       else (store, .skip, [skipLine item])) := by
    unfold ddbPutCore
    rw [hver]
    simp
  refine ⟨?_, ?_, ?_⟩
  · rw [hres, hcore, ← hguard]
    cases hg : guardHolds store item with
    | true => simp
    | false => simp
  · rw [hres, hcore, ← hguard]
    cases hg : guardHolds store item with
    | true => simp
    | false => simp
  · simp [ddbPutLive, beq_eq_false_iff_ne.mpr hcode]

/-- Witness for C1: with version 5 live, a guarded write of version 2 skips
(succeeding, not erroring), and an injected `AccessDeniedException` aborts. -/
theorem c1_witness :
    ddbPutLive miniStore5 (miniActItem 2) true false none
      = .ok (miniStore5, .skip, [skipLine (miniActItem 2)])
    ∧ ddbPutLive miniStore5 (miniActItem 2) true false (some "AccessDeniedException")
      = .error (.storeError "AccessDeniedException") := by
  have h := c1_version_guard_semantics miniStore5 (miniActItem 2) 2 "AccessDeniedException"
    (by decide)
    (by
      intro old hd
      rw [show dget miniStore5 (itemKey (miniActItem 2)) = some (miniActItem 5) from by decide]
        at hd
      cases hd
      exact ⟨5, by decide⟩)
    (by decide)
  refine ⟨h.2.1.mpr ?_, h.2.2⟩
  rintro (hnone | ⟨old, n, ho, hn, hle⟩)
  · rw [show dget miniStore5 (itemKey (miniActItem 2)) = some (miniActItem 5) from by decide]
      at hnone
    cases hnone
  · rw [show dget miniStore5 (itemKey (miniActItem 2)) = some (miniActItem 5) from by decide]
      at ho
    cases ho
    rw [show yget (miniActItem 5) "version" = some (.int 5) from by decide] at hn
    cases hn
    omega

/-- **C8.** When `dry` is enabled no mutating store call is performed by
either client: the object-store client returns its bucket unchanged and logs
only the target key and payload byte size, and the live-registry client
returns the table unchanged and logs only the intended key and record
content — for every table state and every injected fault, so the
version-guard condition is never evaluated and no backend call is made. -/
theorem c8_dry_run_suppresses_writes (s3 : S3Store) (bucket key : String) (obj : JValue)
    (store : DStore) (item : Yaml) (guard : Bool) (fault : Option String) :
    s3PutJson s3 bucket key obj true
      = (s3, ["[DRY] S3 PUT s3://" ++ bucket ++ "/" ++ key ++ " (" ++
          toString (utf8Bytes (jdump ", " ": " obj)).length ++ " bytes)"])
    ∧ ddbPutLive store item guard true fault
      = .ok (store, .dryRun, ["[DRY] DDB PUT " ++ pyStr (ygetD item "PK" .null) ++ " " ++
          pyStr (ygetD item "SK" .null) ++ " -> " ++ jdump ", " ": " (.obj (ofFields item))]) :=
  ⟨rfl, rfl⟩

/-- **C2.** Across any sequence of publish attempts that go through the
guarded `_ddb_put_live` (each item carrying an integer version, as every
Activity LiveRecord does), the integer `version` attribute stored at any
composite key is non-decreasing; and concretely, publishing version 2 and
version 1 for the same Activity, in either order, leaves the live version
at 2. -/
theorem c2_version_monotonic (items : List Yaml) (s0 : DStore) (k : DKey) (n : Int)
    (hvers : ∀ it ∈ items, ∃ v : Int, yget it "version" = some (.int v))
    (h0 : versionAt s0 k = some n) :
    (∃ m, versionAt (putSeq items s0) k = some m ∧ n ≤ m)
    ∧ versionAt (putSeq [miniActItem 2, miniActItem 1] []) ("ACTIVITY#u_1#e_1#a_1", "LIVE")
      = some 2
    ∧ versionAt (putSeq [miniActItem 1, miniActItem 2] []) ("ACTIVITY#u_1#e_1#a_1", "LIVE")
      = some 2 := by
  refine ⟨?_, by decide, by decide⟩
  induction items generalizing s0 n with
  | nil => exact ⟨n, h0, le_refl n⟩
  | cons it rest ih =>
    obtain ⟨v, hv⟩ := hvers it (by simp)
    obtain ⟨m1, h1, hle1⟩ := versionAt_core_mono s0 it k n v hv h0
    obtain ⟨m2, h2, hle2⟩ :=
      ih ((ddbPutCore s0 it true).1) m1 (fun it' hmem => hvers it' (by simp [hmem])) h1
    exact ⟨m2, h2, le_trans hle1 hle2⟩

/-- Witness for C2: starting from version 3 live, pushing versions 4 then 2
through the guard leaves some version at least 3 at the key. -/
theorem c2_witness :
    ∃ m, versionAt (putSeq [miniActItem 4, miniActItem 2] (putSeq [miniActItem 3] []))
        ("ACTIVITY#u_1#e_1#a_1", "LIVE") = some m ∧ 3 ≤ m :=
  (c2_version_monotonic [miniActItem 4, miniActItem 2] (putSeq [miniActItem 3] [])
    ("ACTIVITY#u_1#e_1#a_1", "LIVE") 3
    (by
      intro it hmem
      simp only [List.mem_cons, List.not_mem_nil, or_false] at hmem
      rcases hmem with h | h
      · exact ⟨4, by rw [h]; rfl⟩
      · exact ⟨2, by rw [h]; rfl⟩)
    (by decide)).1

/-- **C5 (counterexample).** The fully-qualified activity id stored in the
Manifest does NOT use the reserved separator `SEP = "#"`: `_build_manifest`
joins with `/`, so for unit `u`, episode `e`, activity `a` the manifest's
`activityFqId` is `"u/e/a"`, not `"u#e#a"` — refuting the claim that every
FQID produced by the pipeline is SEP-joined. -/
theorem c5_counterexample :
    ((buildManifest (.str "u") (.str "e") [("id", .str "a")]).toOption.bind
        (fun m => yget m "activityFqId")) = some (.str "u/e/a")
    ∧ ("u/e/a" : String) ≠ "u" ++ SEP ++ "e" ++ SEP ++ "a" := by
  exact ⟨by decide, by decide⟩

/-- **C5 (amended).** The Activity LiveRecord's `activityFqid` always equals
`unitId ++ SEP ++ episodeId ++ SEP ++ activityId`; the Manifest's
`activityFqId` instead joins the same components with `/`; and the pipeline
performs no validation of id components whatsoever — an id containing the
separator is accepted silently (the per-activity step still succeeds). -/
theorem c5_fqid_composition (t : Int) (bucket s3Key : String)
    (uid eid aid atitle alocale totQ : JValue) (version : Int)
    (u e : JValue) (y : Yaml) (m : Yaml)
    (ctx : Ctx) (f : ActFile) (st : RunOut) (v : Int) (n : Nat)
    (hm : buildManifest u e y = .ok m)
    (hv : pyInt (ygetD f.yaml "version" (.int 1)) = some v)
    (hn : pyLen (ygetD f.yaml "questions" (jarr [])) = some n) :
    yget (activityItem t bucket s3Key uid eid aid atitle alocale totQ version) "activityFqid"
      = some (.str (pyStr uid ++ SEP ++ pyStr eid ++ SEP ++ pyStr aid))
    ∧ yget m "activityFqId"
      = some (.str (pyStr u ++ "/" ++ pyStr e ++ "/" ++ pyStr (ygetD y "id" .null)))
    ∧ ∃ out, runActivity ctx uid eid f st = .ok out := by
  refine ⟨rfl, ?_, ?_⟩
  · rw [show buildManifest u e y
        = (pyIntE (ygetD y "version" (.int 1)) >>= fun version =>
           pyLenE (ygetD y "questions" (jarr [])) >>= fun total =>
           Except.ok [("unitId", u),
             ("episodeId", e),
             ("activityId", ygetD y "id" .null),
             ("activityFqId", .str (pyStr u ++ "/" ++ pyStr e ++ "/" ++
               pyStr (ygetD y "id" .null))),
             ("title", ygetD y "title" (ygetD y "id" .null)),
             ("version", .int version),
             ("locale", ygetD y "locale" (.str "en-US")),
             ("total", .int total),
             ("questions", ygetD y "questions" (jarr []))]) from rfl] at hm
    cases hver : pyIntE (ygetD y "version" (.int 1)) with
    | error err => rw [hver, bindErr] at hm; cases hm
    | ok ver =>
      cases hlen : pyLenE (ygetD y "questions" (jarr [])) with
      | error err => rw [hver, bindOk, hlen, bindErr] at hm; cases hm
      | ok tot =>
        rw [hver, bindOk, hlen, bindOk] at hm
        cases hm
        rfl
  · cases hdry : ctx.dry with
    | true =>
      simp only [runActivity, buildManifest, pyIntE, pyLenE, hv, hn, bindOk, ddbPutLive, hdry,
        s3PutJson, if_true]
      exact ⟨_, rfl⟩
    | false =>
      simp only [runActivity, buildManifest, pyIntE, pyLenE, hv, hn, bindOk, ddbPutLive, hdry,
        s3PutJson, Bool.false_eq_true, if_false]
      exact ⟨_, rfl⟩

/-- Witness for C5 (amended): concrete instantiation at `sepIdFile`, whose
declared id `a#1` contains the separator and is accepted without any
rejection or flag. -/
theorem c5_witness :
    yget (activityItem 1700000000 "liwanag-content-bucket" "k"
        (.str "u_1") (.str "e_1") (.str "a#1") (.str "T") (.str "en-US") (.int 0) 1)
        "activityFqid"
      = some (.str (pyStr (.str "u_1") ++ SEP ++ pyStr (.str "e_1") ++ SEP ++ pyStr (.str "a#1")))
    ∧ ∃ out, runActivity sampleCtx (.str "u_1") (.str "e_1") sepIdFile ⟨[], [], [], []⟩
        = .ok out := by
  have h := c5_fqid_composition 1700000000 "liwanag-content-bucket" "k"
    (.str "u_1") (.str "e_1") (.str "a#1") (.str "T") (.str "en-US") (.int 0) 1
    (.str "u") (.str "e") [("id", .str "a")]
    [("unitId", .str "u"), ("episodeId", .str "e"), ("activityId", .str "a"),
     ("activityFqId", .str "u/e/a"), ("title", .str "a"), ("version", .int 1),
     ("locale", .str "en-US"), ("total", .int 0), ("questions", jarr [])]
    sampleCtx sepIdFile ⟨[], [], [], []⟩ 1 0 (by decide) (by decide) (by decide)
  exact ⟨h.1, h.2.2⟩

/-- **C6 (code bug).** For an Activity document omitting optional fields, the
LiveRecord takes the documented defaults (id = file stem `a_2`, title = id,
version 1, locale `en-US`, zero questions) — but the stored Manifest does
not: `_build_manifest` reads `id` with no stem fallback, so the manifest's
`activityId` and `title` are `null` and its `activityFqId` is
`"u_1/e_1/None"`, even though the same run's S3 key and LiveRecord use the
stem `a_2`. -/
theorem c6_manifest_misses_id_default :
    buildManifest (.str "u_1") (.str "e_1") []
      = .ok [("unitId", .str "u_1"), ("episodeId", .str "e_1"), ("activityId", .null),
             ("activityFqId", .str "u_1/e_1/None"), ("title", .null), ("version", .int 1),
             ("locale", .str "en-US"), ("total", .int 0), ("questions", jarr [])]
    ∧ ((runActivity sampleCtx (.str "u_1") (.str "e_1") ⟨"a_2", []⟩ ⟨[], [], [], []⟩).toOption.bind
        (fun out => dget out.ddb ("ACTIVITY#u_1#e_1#a_2", "LIVE"))).map
        (fun it => (yget it "title", yget it "activityId", yget it "version",
          yget it "locale", yget it "totalQuestions"))
      = some (some (.str "a_2"), some (.str "a_2"), some (.int 1),
          some (.str "en-US"), some (.int 0)) := by
  exact ⟨by decide, by decide⟩

/-- **C9.** A missing Unit document (neither inside the directory nor as a
sibling) or a missing Episode document kills the run immediately: discovery
returns the `_die` error, the unit/episode loop aborts at once with that
diagnostic regardless of the remaining work, the exit code is 1 with the
diagnostic on stderr — while a run that completes with version-guard Skips
still exits 0. -/
theorem c9_missing_doc_aborts (u : UnitDir) (ep : EpDir) (ctx : Ctx) (us : List UnitDir)
    (es : List EpDir) (uid : JValue) (st : RunOut) (ctx2 : Ctx)
    (root2 : Option (List UnitDir)) (ddb2 : DStore) (s32 : S3Store)
    (hu1 : u.yamlInside = none) (hu2 : u.yamlSibling = none) (he : ep.yamlInside = none)
    (hskip : (runPublish ctx2 root2 ddb2 s32).toOption.map
        (fun out => out.acts.contains .skip) = some true) :
    discoverUnitYaml u = .error (.died ("Unit YAML not found for " ++ u.name))
    ∧ discoverEpisodeYaml ep
      = .error (.died ("Episode YAML not found: " ++ ep.name ++ "/" ++ ep.name ++ ".yaml"))
    ∧ runUnitsList ctx (u :: us) st = .error (.died ("Unit YAML not found for " ++ u.name))
    ∧ runEpsList ctx uid (ep :: es) st
      = .error (.died ("Episode YAML not found: " ++ ep.name ++ "/" ++ ep.name ++ ".yaml"))
    ∧ exitCode (runUnitsList ctx (u :: us) st) = 1
    ∧ stderrLines (runUnitsList ctx (u :: us) st)
      = ["[ERROR] Unit YAML not found for " ++ u.name]
    ∧ exitCode (runPublish ctx2 root2 ddb2 s32) = 0 := by
  have hdu : discoverUnitYaml u = .error (.died ("Unit YAML not found for " ++ u.name)) := by
    unfold discoverUnitYaml
    rw [hu1, hu2]
  have hde : discoverEpisodeYaml ep
      = .error (.died ("Episode YAML not found: " ++ ep.name ++ "/" ++ ep.name ++ ".yaml")) := by
    unfold discoverEpisodeYaml
    rw [he]
  have hul : runUnitsList ctx (u :: us) st
      = .error (.died ("Unit YAML not found for " ++ u.name)) := by
    show (runUnit ctx u st >>= fun st1 => runUnitsList ctx us st1)
      = .error (.died ("Unit YAML not found for " ++ u.name))
    rw [show runUnit ctx u st = .error (.died ("Unit YAML not found for " ++ u.name)) from by
      unfold runUnit
      rw [hdu, bindErr]]
    rw [bindErr]
  have hel : runEpsList ctx uid (ep :: es) st
      = .error (.died ("Episode YAML not found: " ++ ep.name ++ "/" ++ ep.name ++ ".yaml")) := by
    show (runEpisode ctx uid ep st >>= fun st1 => runEpsList ctx uid es st1)
      = .error (.died ("Episode YAML not found: " ++ ep.name ++ "/" ++ ep.name ++ ".yaml"))
    rw [show runEpisode ctx uid ep st
        = .error (.died ("Episode YAML not found: " ++ ep.name ++ "/" ++ ep.name ++ ".yaml")) from by
      unfold runEpisode
      rw [hde, bindErr]]
    rw [bindErr]
  refine ⟨hdu, hde, hul, hel, by rw [hul]; rfl, by rw [hul]; rfl, ?_⟩
  cases hr : runPublish ctx2 root2 ddb2 s32 with
  | ok out => rfl
  | error err =>
    rw [hr] at hskip
    simp [Except.toOption] at hskip

/-- Witness for C9: a unit and an episode with their documents missing abort
with the exact diagnostics and exit code 1, while a publish of `skipTree`
against a registry already holding a newer version records a Skip and still
exits 0. -/
theorem c9_witness :
    discoverUnitYaml u9 = .error (.died ("Unit YAML not found for " ++ u9.name))
    ∧ discoverEpisodeYaml ep9
      = .error (.died ("Episode YAML not found: " ++ ep9.name ++ "/" ++ ep9.name ++ ".yaml"))
    ∧ runUnitsList sampleCtx (u9 :: []) ⟨[], [], [], []⟩
      = .error (.died ("Unit YAML not found for " ++ u9.name))
    ∧ runEpsList sampleCtx .null (ep9 :: []) ⟨[], [], [], []⟩
      = .error (.died ("Episode YAML not found: " ++ ep9.name ++ "/" ++ ep9.name ++ ".yaml"))
    ∧ exitCode (runUnitsList sampleCtx (u9 :: []) ⟨[], [], [], []⟩) = 1
    ∧ stderrLines (runUnitsList sampleCtx (u9 :: []) ⟨[], [], [], []⟩)
      = ["[ERROR] Unit YAML not found for " ++ u9.name]
    ∧ exitCode (runPublish sampleCtx (some skipTree) miniStore5 []) = 0 :=
  c9_missing_doc_aborts u9 ep9 sampleCtx [] [] .null ⟨[], [], [], []⟩ sampleCtx
    (some skipTree) miniStore5 [] rfl rfl rfl (by decide)

/-- **C4 (counterexample).** Two manifests agreeing on all five of
(unitId, episodeId, activityId, version, questions) but differing in `title`
produce different 16-hex content hashes: the canonical serialization hashed by
`_sha256_short` also covers `title` (and `locale`), so the hash is not a
function of exactly those five fields. -/
theorem c4_counterexample :
    ((buildManifest (.str "u") (.str "e") [("id", .str "a"), ("title", .str "t1")]).toOption.map
        (fun m => (yget m "unitId", yget m "episodeId", yget m "activityId",
          yget m "version", yget m "questions")))
      = ((buildManifest (.str "u") (.str "e") [("id", .str "a"), ("title", .str "t2")]).toOption.map
        (fun m => (yget m "unitId", yget m "episodeId", yget m "activityId",
          yget m "version", yget m "questions")))
    ∧ ((buildManifest (.str "u") (.str "e") [("id", .str "a"), ("title", .str "t1")]).toOption.map
        (fun m => sha256Short (.obj (ofFields m))))
      ≠ ((buildManifest (.str "u") (.str "e") [("id", .str "a"), ("title", .str "t2")]).toOption.map
        (fun m => sha256Short (.obj (ofFields m)))) := by
  exact ⟨by decide, by decide⟩

/-- **C4 (amended).** The manifest content hash is a deterministic pure
function of (unitId, episodeId, activityId, **title**, version, **locale**,
questions): two `_build_manifest` results agreeing on those produce identical
16-hex hashes; and because the canonical serialization sorts keys, the hash of
an object is invariant under permutation of its (duplicate-free) field
insertion order. -/
theorem c4_hash_determinism (u e : JValue) (y1 y2 : Yaml) (m1 m2 : Yaml)
    (fs1 fs2 : List (String × JValue))
    (hm1 : buildManifest u e y1 = .ok m1) (hm2 : buildManifest u e y2 = .ok m2)
    (hida : ygetD y1 "id" .null = ygetD y2 "id" .null)
    (htitle : ygetD y1 "title" (ygetD y1 "id" .null) = ygetD y2 "title" (ygetD y2 "id" .null))
    (hver : ygetD y1 "version" (.int 1) = ygetD y2 "version" (.int 1))
    (hloc : ygetD y1 "locale" (.str "en-US") = ygetD y2 "locale" (.str "en-US"))
    (hq : ygetD y1 "questions" (jarr []) = ygetD y2 "questions" (jarr []))
    (hperm : fs1.Perm fs2) (hnd : (fs1.map Prod.fst).Nodup) :
    sha256Short (.obj (ofFields m1)) = sha256Short (.obj (ofFields m2))
    ∧ sha256Short (jobj fs1) = sha256Short (jobj fs2) := by
  constructor
  · have hm : m1 = m2 := by
      unfold buildManifest at hm1 hm2
      rw [← hver, ← hq] at hm2
      cases hv : pyIntE (ygetD y1 "version" (.int 1)) with
      | error err =>
        rw [hv, bindErr] at hm1
        cases hm1
      | ok ver =>
        rw [hv, bindOk] at hm1 hm2
        cases hl : pyLenE (ygetD y1 "questions" (jarr [])) with
        | error err =>
          simp only [hl, bindErr] at hm1
          cases hm1
        | ok tot =>
          simp only [hl, bindOk, Except.ok.injEq] at hm1 hm2
          rw [← hm1, ← hm2, htitle, hida, hloc, hq]
    rw [hm]
  · have hc : canon (jobj fs1) = canon (jobj fs2) := by
      show JValue.obj (ofFields (sortPairs (toFields (canon (ofFields fs1)))))
        = JValue.obj (ofFields (sortPairs (toFields (canon (ofFields fs2)))))
      rw [toFields_canon_ofFields, toFields_canon_ofFields]
      rw [sortPairs_perm_eq (hperm.map (fun p => (p.1, canon p.2))) ?_]
      rw [List.map_map]
      have : (Prod.fst ∘ fun p : String × JValue => (p.1, canon p.2)) = Prod.fst := by
        funext p
        rfl
      rw [this]
      exact hnd
    unfold sha256Short
    rw [hc]

/-- Witness for C4: the same activity document with its `id` and `title`
fields given in either insertion order yields the same hash, and an object's
hash is invariant under swapping its two fields. -/
theorem c4_witness :
    sha256Short (.obj (ofFields [("unitId", .str "u"), ("episodeId", .str "e"),
        ("activityId", .str "a"), ("activityFqId", .str "u/e/a"), ("title", .str "t"),
        ("version", .int 1), ("locale", .str "en-US"), ("total", .int 0),
        ("questions", jarr [])]))
      = sha256Short (.obj (ofFields [("unitId", .str "u"), ("episodeId", .str "e"),
        ("activityId", .str "a"), ("activityFqId", .str "u/e/a"), ("title", .str "t"),
        ("version", .int 1), ("locale", .str "en-US"), ("total", .int 0),
        ("questions", jarr [])]))
    ∧ sha256Short (jobj [("b", .int 1), ("a", .str "x")])
      = sha256Short (jobj [("a", .str "x"), ("b", .int 1)]) :=
  c4_hash_determinism (.str "u") (.str "e")
    [("id", .str "a"), ("title", .str "t")] [("title", .str "t"), ("id", .str "a")]
    [("unitId", .str "u"), ("episodeId", .str "e"), ("activityId", .str "a"),
     ("activityFqId", .str "u/e/a"), ("title", .str "t"), ("version", .int 1),
     ("locale", .str "en-US"), ("total", .int 0), ("questions", jarr [])]
    [("unitId", .str "u"), ("episodeId", .str "e"), ("activityId", .str "a"),
     ("activityFqId", .str "u/e/a"), ("title", .str "t"), ("version", .int 1),
     ("locale", .str "en-US"), ("total", .int 0), ("questions", jarr [])]
    [("b", .int 1), ("a", .str "x")] [("a", .str "x"), ("b", .int 1)]
    (by decide) (by decide) (by decide) (by decide) (by decide) (by decide) (by decide)
    (by decide) (by decide)

/-- **C7.** A Unit whose directory has no `episodes/` container still gets its
Unit LiveRecord written — with empty `episodeIds`/`episodeFqIds` lists — a
warning is emitted, no failure is raised, and the run continues with the next
Unit. -/
theorem c7_missing_episodes_tolerated (ctx : Ctx) (u : UnitDir) (us : List UnitDir)
    (st : RunOut) (uy : Yaml) (uid utitle ucontent : JValue)
    (hdry : ctx.dry = false)
    (hep : u.episodes = none)
    (hy : discoverUnitYaml u = .ok uy)
    (hid : uid = orDefault (yget uy "id") (.str u.name))
    (htitle : utitle = ygetD uy "title" uid)
    (hcontent : ucontent = ygetD uy "content" (.str "")) :
    runUnit ctx u st = .ok ⟨dput st.ddb (itemKey (unitItem ctx.t uid utitle ucontent [] []))
        (unitItem ctx.t uid utitle ucontent [] []), st.s3,
        (st.logs ++ [okLine (unitItem ctx.t uid utitle ucontent [] [])]) ++
          ["[WARN] No episodes folder for unit " ++ pyStr uid], st.acts⟩
    ∧ runUnitsList ctx (u :: us) st
      = runUnitsList ctx us ⟨dput st.ddb (itemKey (unitItem ctx.t uid utitle ucontent [] []))
          (unitItem ctx.t uid utitle ucontent [] []), st.s3,
          (st.logs ++ [okLine (unitItem ctx.t uid utitle ucontent [] [])]) ++
            ["[WARN] No episodes folder for unit " ++ pyStr uid], st.acts⟩ := by
  subst hid
  subst htitle
  subst hcontent
  have h1 : runUnit ctx u st = .ok ⟨dput st.ddb
      (itemKey (unitItem ctx.t (orDefault (yget uy "id") (.str u.name))
        (ygetD uy "title" (orDefault (yget uy "id") (.str u.name)))
        (ygetD uy "content" (.str "")) [] []))
      (unitItem ctx.t (orDefault (yget uy "id") (.str u.name))
        (ygetD uy "title" (orDefault (yget uy "id") (.str u.name)))
        (ygetD uy "content" (.str "")) [] []), st.s3,
      (st.logs ++ [okLine (unitItem ctx.t (orDefault (yget uy "id") (.str u.name))
        (ygetD uy "title" (orDefault (yget uy "id") (.str u.name)))
        (ygetD uy "content" (.str "")) [] [])]) ++
        ["[WARN] No episodes folder for unit " ++
          pyStr (orDefault (yget uy "id") (.str u.name))], st.acts⟩ := by
    simp only [runUnit, hy, bindOk, sortedEpDirs, hep, List.map_nil, ddbPutLive, hdry,
      Bool.false_eq_true, if_false, ddbPutCore, Bool.false_and, bindOk]
  refine ⟨h1, ?_⟩
  show (runUnit ctx u st >>= fun st1 => runUnitsList ctx us st1) = _
  rw [h1, bindOk]

/-- Witness for C7: a unit directory `u_3` with a document but no `episodes/`
folder is published with empty episode lists, warned about, and the loop
proceeds to the rest of the units. -/
theorem c7_witness :
    runUnit sampleCtx ⟨"u_3", some [("title", .str "T3")], none, none⟩ ⟨[], [], [], []⟩
      = .ok ⟨dput [] (itemKey (unitItem 1700000000 (.str "u_3") (.str "T3") (.str "") [] []))
          (unitItem 1700000000 (.str "u_3") (.str "T3") (.str "") [] []), [],
          (([] : List String) ++ [okLine (unitItem 1700000000 (.str "u_3") (.str "T3")
            (.str "") [] [])]) ++ ["[WARN] No episodes folder for unit " ++ pyStr (.str "u_3")],
          []⟩
    ∧ runUnitsList sampleCtx (⟨"u_3", some [("title", .str "T3")], none, none⟩ :: []) ⟨[], [], [], []⟩
      = runUnitsList sampleCtx []
          ⟨dput [] (itemKey (unitItem 1700000000 (.str "u_3") (.str "T3") (.str "") [] []))
            (unitItem 1700000000 (.str "u_3") (.str "T3") (.str "") [] []), [],
          (([] : List String) ++ [okLine (unitItem 1700000000 (.str "u_3") (.str "T3")
            (.str "") [] [])]) ++ ["[WARN] No episodes folder for unit " ++ pyStr (.str "u_3")],
          []⟩ :=
  c7_missing_episodes_tolerated sampleCtx ⟨"u_3", some [("title", .str "T3")], none, none⟩ []
    ⟨[], [], [], []⟩ [("title", .str "T3")] (.str "u_3") (.str "T3") (.str "")
    rfl rfl rfl (by decide) (by decide) (by decide)

/-- **C10.** The Unit LiveRecord's episode id lists are derived from episode
directory names before any episode document is read, while the Episode
LiveRecord's key uses the document's declared id: when an episode document
declares an id different from its directory name, the Unit lists the
directory name, the Episode LiveRecord is written under the declared id, and
no record exists under the key the Unit's listing points to. -/
theorem c10_unit_lists_directory_names (ctx : Ctx) (u : UnitDir) (ep : EpDir)
    (uy epy : Yaml) (d uid : JValue) (st : RunOut)
    (hdry : ctx.dry = false)
    (hy : discoverUnitYaml u = .ok uy)
    (huid : uid = orDefault (yget uy "id") (.str u.name))
    (heps : u.episodes = some [ep])
    (hen : strStarts "e_" ep.name = true)
    (hepy : ep.yamlInside = some epy)
    (hid : yget epy "id" = some d)
    (htr : jTruthy d = true)
    (hne : pyStr d ≠ ep.name)
    (hacts : ep.activities = none)
    (habs : dget st.ddb ("EPISODE#" ++ pyStr uid ++ SEP ++ ep.name, "LIVE") = none) :
    ∃ out, runUnit ctx u st = .ok out
      ∧ (dget out.ddb ("UNIT#" ++ pyStr uid, "LIVE")).bind (fun it => yget it "episodeIds")
        = some (jarr [.str ep.name])
      ∧ (dget out.ddb ("EPISODE#" ++ pyStr uid ++ SEP ++ pyStr d, "LIVE")).bind
          (fun it => yget it "episodeId") = some d
      ∧ dget out.ddb ("EPISODE#" ++ pyStr uid ++ SEP ++ ep.name, "LIVE") = none := by
  subst huid
  have hsort : sortedEpDirs u = [ep] := by
    unfold sortedEpDirs
    rw [heps]
    simp [hen, sortKey, insertKey]
  have hoD : orDefault (some d) (.str ep.name) = d := by
    simp [orDefault, htr]
  have hrun : runUnit ctx u st = .ok ⟨
      dput (dput st.ddb
          ("UNIT#" ++ pyStr (orDefault (yget uy "id") (.str u.name)), "LIVE")
          (unitItem ctx.t (orDefault (yget uy "id") (.str u.name))
            (ygetD uy "title" (orDefault (yget uy "id") (.str u.name)))
            (ygetD uy "content" (.str "")) [ep.name]
            [pyStr (orDefault (yget uy "id") (.str u.name)) ++ SEP ++ ep.name]))
        ("EPISODE#" ++ pyStr (orDefault (yget uy "id") (.str u.name)) ++ SEP ++ pyStr d, "LIVE")
        (episodeItem ctx.t (orDefault (yget uy "id") (.str u.name)) d
          (ygetD epy "title" d) [] []),
      st.s3,
      ((st.logs ++ [okLine (unitItem ctx.t (orDefault (yget uy "id") (.str u.name))
          (ygetD uy "title" (orDefault (yget uy "id") (.str u.name)))
          (ygetD uy "content" (.str "")) [ep.name]
          [pyStr (orDefault (yget uy "id") (.str u.name)) ++ SEP ++ ep.name])]) ++
        [okLine (episodeItem ctx.t (orDefault (yget uy "id") (.str u.name)) d
          (ygetD epy "title" d) [] [])]),
      st.acts⟩ := by
    simp only [runUnit, hy, bindOk, hsort, List.map_cons, List.map_nil, heps,
      runEpsList, runEpisode, discoverEpisodeYaml, hepy, hid, hoD, listActivityYaml, hacts,
      ddbPutLive, hdry, Bool.false_eq_true, if_false, ddbPutCore, Bool.false_and,
      runActsList]
    rfl
  have hNE1 : ("UNIT#" ++ pyStr (orDefault (yget uy "id") (.str u.name)), ("LIVE" : String))
      ≠ ("EPISODE#" ++ pyStr (orDefault (yget uy "id") (.str u.name)) ++ SEP ++ pyStr d,
        "LIVE") := by
    intro hh
    exact str_ne_of_head ("UNIT#" ++ pyStr (orDefault (yget uy "id") (.str u.name)))
      ("EPISODE#" ++ pyStr (orDefault (yget uy "id") (.str u.name)) ++ SEP ++ pyStr d)
      'U' 'E' rfl rfl (by decide) (congrArg Prod.fst hh)
  have hNE2 : ("EPISODE#" ++ pyStr (orDefault (yget uy "id") (.str u.name)) ++ SEP ++ ep.name,
      ("LIVE" : String))
      ≠ ("EPISODE#" ++ pyStr (orDefault (yget uy "id") (.str u.name)) ++ SEP ++ pyStr d,
        "LIVE") := by
    intro hh
    exact str_append_ne_right
      ("EPISODE#" ++ pyStr (orDefault (yget uy "id") (.str u.name)) ++ SEP) ep.name (pyStr d)
      (fun hh2 => hne hh2.symm) (congrArg Prod.fst hh)
  have hNE3 : ("EPISODE#" ++ pyStr (orDefault (yget uy "id") (.str u.name)) ++ SEP ++ ep.name,
      ("LIVE" : String))
      ≠ ("UNIT#" ++ pyStr (orDefault (yget uy "id") (.str u.name)), "LIVE") := by
    intro hh
    exact str_ne_of_head
      ("EPISODE#" ++ pyStr (orDefault (yget uy "id") (.str u.name)) ++ SEP ++ ep.name)
      ("UNIT#" ++ pyStr (orDefault (yget uy "id") (.str u.name)))
      'E' 'U' rfl rfl (by decide) (congrArg Prod.fst hh)
  refine ⟨_, hrun, ?_, ?_, ?_⟩
  · rw [show (⟨dput (dput st.ddb _ _) _ _, st.s3, _, st.acts⟩ : RunOut).ddb
      = dput (dput st.ddb _ _) _ _ from rfl]
    rw [dget_dput_ne _ _ _ _ hNE1, dget_dput_self]
    rfl
  · rw [show (⟨dput (dput st.ddb _ _) _ _, st.s3, _, st.acts⟩ : RunOut).ddb
      = dput (dput st.ddb _ _) _ _ from rfl]
    rw [dget_dput_self]
    rfl
  · rw [show (⟨dput (dput st.ddb _ _) _ _, st.s3, _, st.acts⟩ : RunOut).ddb
      = dput (dput st.ddb _ _) _ _ from rfl]
    rw [dget_dput_ne _ _ _ _ hNE2, dget_dput_ne _ _ _ _ hNE3]
    exact habs

/-- Witness for C10: episode directory `e_1` declaring `id: basics` under unit
`u_1`; the Unit lists `e_1` but the Episode LiveRecord is keyed
`EPISODE#u_1#basics`, and `EPISODE#u_1#e_1` does not exist. -/
theorem c10_witness :
    ∃ out, runUnit sampleCtx ⟨"u_1", some [], none, some [⟨"e_1", some [("id", .str "basics")], none⟩]⟩
        ⟨[], [], [], []⟩ = .ok out
      ∧ (dget out.ddb ("UNIT#" ++ pyStr (.str "u_1"), "LIVE")).bind
          (fun it => yget it "episodeIds") = some (jarr [.str "e_1"])
      ∧ (dget out.ddb ("EPISODE#" ++ pyStr (.str "u_1") ++ SEP ++ pyStr (.str "basics"), "LIVE")).bind
          (fun it => yget it "episodeId") = some (.str "basics")
      ∧ dget out.ddb ("EPISODE#" ++ pyStr (.str "u_1") ++ SEP ++ "e_1", "LIVE") = none :=
  c10_unit_lists_directory_names sampleCtx
    ⟨"u_1", some [], none, some [⟨"e_1", some [("id", .str "basics")], none⟩]⟩
    ⟨"e_1", some [("id", .str "basics")], none⟩ [] [("id", .str "basics")]
    (.str "basics") (.str "u_1") ⟨[], [], [], []⟩
    rfl rfl rfl rfl rfl rfl rfl rfl (by decide) rfl rfl

/-- Counterexample for C3: republishing the sample tree over the state left
by the first run makes both guarded Activity writes succeed again — the
condition `#v <= :newv` passes on equal versions — so the second run's
outcomes are `[ok, ok]`, not the Skip outcomes the specification promises. -/
theorem c3_counterexample :
    ((runPublish sampleCtx (some sampleTree) [] []).toOption.bind (fun o1 =>
        (runPublish sampleCtx (some sampleTree) o1.ddb o1.s3).toOption)).map
      (fun o2 => o2.acts) = some [PutOutcome.ok, PutOutcome.ok] ∧
    PutOutcome.ok ≠ PutOutcome.skip :=
  ⟨by decide, by decide⟩

/-- **C3.** Republication is idempotent in state but not Skip-reporting: for a
non-dry run whose operation trace satisfies the side conditions (the guarded
Activity keys are pairwise distinct, disjoint from the unguarded Unit/Episode
keys, carry integer versions, and are initially absent), the first publish
succeeds, the immediate second publish of the unchanged tree succeeds, the
DynamoDB table and the S3 bucket after the second run agree key-for-key with
the state after the first run — and every guarded Activity write, in the
second run as in the first, resolves to the OK outcome (the equal-version
guard passes), not to Skip. -/
theorem c3_idempotent_republish (ctx : Ctx) (units : List UnitDir)
    (ddb0 : DStore) (s30 : S3Store) (ops : List Op)
    (hdry : ctx.dry = false)
    (hops : opsOfPublish ctx units = Except.ok ops)
    (hside : sideCond ddb0 ops = true) :
    ∃ out1 out2,
      runPublish ctx (some units) ddb0 s30 = Except.ok out1 ∧
      runPublish ctx (some units) out1.ddb out1.s3 = Except.ok out2 ∧
      (∀ kk, dget out2.ddb kk = dget out1.ddb kk) ∧
      (∀ kk, sget out2.s3 kk = sget out1.s3 kk) ∧
      out1.acts = okOutcomes ops ∧
      out2.acts = okOutcomes ops ∧
      (∀ a ∈ out2.acts, a = PutOutcome.ok) := by
  obtain ⟨hnd, hdisj, hshape, habs⟩ := sideCond_parts ddb0 ops hside
  obtain ⟨out1, h1, hd1, hs1, ha1⟩ :
      ∃ o : RunOut, runPublish ctx (some units) ddb0 s30 = Except.ok o ∧
        o.ddb = (applyOps ctx ops ⟨ddb0, s30, [], []⟩).ddb ∧
        o.s3 = (applyOps ctx ops ⟨ddb0, s30, [], []⟩).s3 ∧
        o.acts = (applyOps ctx ops ⟨ddb0, s30, [], []⟩).acts := by
    rw [sim_publish, hops]
    exact ⟨_, rfl, rfl, rfl, rfl⟩
  obtain ⟨out2, h2, hd2, hs2, ha2⟩ :
      ∃ o : RunOut, runPublish ctx (some units) out1.ddb out1.s3 = Except.ok o ∧
        o.ddb = (applyOps ctx ops ⟨out1.ddb, out1.s3, [], []⟩).ddb ∧
        o.s3 = (applyOps ctx ops ⟨out1.ddb, out1.s3, [], []⟩).s3 ∧
        o.acts = (applyOps ctx ops ⟨out1.ddb, out1.s3, [], []⟩).acts := by
    rw [sim_publish, hops]
    exact ⟨_, rfl, rfl, rfl, rfl⟩
  have hacts1 : out1.acts = okOutcomes ops := by
    rw [ha1]
    have h := applyOps_acts_ok ctx hdry ops ⟨ddb0, s30, [], []⟩
      (guards_hold_first_run ctx hdry ops ddb0 s30 hside)
    simpa using h
  have hacts2 : out2.acts = okOutcomes ops := by
    rw [ha2]
    have h := applyOps_acts_ok ctx hdry ops ⟨out1.ddb, out1.s3, [], []⟩
      (guards_hold_second_run ctx hdry ops ddb0 s30 out1.s3 out1.ddb hd1 hside)
    simpa using h
  refine ⟨out1, out2, h1, h2, ?_, ?_, hacts1, hacts2, ?_⟩
  · intro kk
    rw [hd2, dget_applyOps ctx kk hdry ops ⟨out1.ddb, out1.s3, [], []⟩]
    show foldK kk ops (dget out1.ddb kk) = dget out1.ddb kk
    rw [hd1, dget_applyOps ctx kk hdry ops ⟨ddb0, s30, [], []⟩]
    show foldK kk ops (foldK kk ops (dget ddb0 kk)) = foldK kk ops (dget ddb0 kk)
    exact foldK_idem ops kk (dget ddb0 kk) hnd hdisj
  · intro kk
    rw [hs2, sget_applyOps ctx kk hdry ops ⟨out1.ddb, out1.s3, [], []⟩]
    show sfoldK kk ops (sget out1.s3 kk) = sget out1.s3 kk
    rw [hs1, sget_applyOps ctx kk hdry ops ⟨ddb0, s30, [], []⟩]
    show sfoldK kk ops (sfoldK kk ops (sget s30 kk)) = sfoldK kk ops (sget s30 kk)
    exact sfoldK_idem kk ops (sget s30 kk)
  · intro a ha
    rw [hacts2] at ha
    exact okOutcomes_all_ok ops a ha

/-- Witness for C3: the sample tree published twice over initially empty
stores; the side conditions hold there, both runs succeed, the stores agree
after the two runs, and both runs report only OK outcomes. -/
theorem c3_witness :
    ∃ out1 out2,
      runPublish sampleCtx (some sampleTree) [] [] = Except.ok out1 ∧
      runPublish sampleCtx (some sampleTree) out1.ddb out1.s3 = Except.ok out2 ∧
      (∀ kk, dget out2.ddb kk = dget out1.ddb kk) ∧
      (∀ kk, sget out2.s3 kk = sget out1.s3 kk) ∧
      out1.acts = okOutcomes sampleOps ∧
      out2.acts = okOutcomes sampleOps ∧
      (∀ a ∈ out2.acts, a = PutOutcome.ok) :=
  c3_idempotent_republish sampleCtx sampleTree [] [] sampleOps rfl (by decide) (by decide)

end Liwanag
